import Mathlib

/-!
Verification of the signal/alarm evaluation engine of the alco_esp Qt
monitor (src/alco_esp/qt_client.py).

The embedding models, faithfully to the Python source:
  - the latest-value table entries and per-channel chart buffers read by the
    evaluator (handle_message, lines 923-971);
  - the generic threshold check _check_temperature_signal (lines 1142-1194),
    including the silent auto-reset branch that calls reset_func and
    reset_stability_signal, each of which re-runs check_signal_conditions;
  - the stability check check_temperature_stability_signal (lines 1224-1305)
    with its nested get_windowed_data helper (lines 1257-1267);
  - the reset slots reset_t_kub_signal / reset_t_deflegmator_signal /
    reset_stability_signal (lines 1307-1329);
  - the settings-dialog diff-and-reset logic of open_settings_dialog
    (lines 776-815).

Python floats are modelled as rationals: every concrete value appearing in
the claims (temperatures with one decimal, thresholds, 70.0) is exactly
representable in binary floating point, and the arithmetic used by the
evaluator (subtraction, comparison, max, min) is exact on these values, so
the rational model agrees with the float computation on all inputs used
here.

The mutual recursion evaluate -> reset -> evaluate present in the source is
modelled with an explicit fuel parameter; running out of fuel is a distinct
error value.  At most two silent auto-resets can occur inside one
evaluation (each makes the corresponding threshold signal armed, and with
the latest-value table fixed during the call an armed signal whose value is
below its threshold never re-enters the reset branch), so any fuel of at
least 3 is sufficient; this is proved below (check_signal_conditions_total).
-/

namespace AlcoEsp

/-- A raw MQTT payload as stored in the latest-value table: either a string
that parses as a float, carried here as its numeric value, or a
non-numeric string. -/
inductive RawVal where
  | num (q : ℚ)
  | nonNum
  deriving DecidableEq

/-- Python float(payload): succeeds exactly on numeric payloads.  Applied
to the result of a table lookup via Option.bind, so a missing entry (None,
raising TypeError in Python) and a non-numeric string (raising ValueError)
both come out as none. -/
def pyFloat? : RawVal → Option ℚ
  | .num q => some q
  | .nonNum => none

/-- State of one alarm condition: the pair of instance attributes
xxx_signal_monitoring_active / xxx_signal_triggered. -/
structure SigState where
  monitoring_active : Bool
  triggered : Bool
  deriving DecidableEq

/-- The two threshold signals (cube = term_k / t_signal_kub, reflux
condenser = term_d / t_signal_deflegmator). -/
inductive SigId where
  | kub
  | defl
  deriving DecidableEq

/-- The mutable signal state of the monitor: the three signal pairs. -/
structure MState where
  kub : SigState
  defl : SigState
  stab : SigState
  deriving DecidableEq

/-- Initial state (qt_client.py lines 440-447): all three signals armed. -/
def initialState : MState :=
  ⟨⟨true, false⟩, ⟨true, false⟩, ⟨true, false⟩⟩

def MState.get : MState → SigId → SigState
  | s, .kub => s.kub
  | s, .defl => s.defl

def MState.set : MState → SigId → SigState → MState
  | s, .kub, v => { s with kub := v }
  | s, .defl, v => { s with defl := v }

def MState.setStab (s : MState) (v : SigState) : MState :=
  { s with stab := v }

/-- The four user-configurable settings (self.settings, lines 428-432). -/
structure Settings where
  t_signal_kub : ℚ
  t_signal_deflegmator : ℚ
  delta_t : ℚ
  period_seconds : ℚ
  deriving DecidableEq

/-- Default settings (lines 77-80). -/
def defaultSettings : Settings := ⟨60, 70, 1/5, 60⟩

/-- The data read by the evaluator: the latest-value table entries for
term_k and term_d, the current time, and the parallel timestamp/value
chart buffers for term_k and term_c used by the stability window. -/
structure Env where
  latest_k : Option RawVal
  latest_d : Option RawVal
  now : ℚ
  ts_k : List ℚ
  data_k : List ℚ
  ts_c : List ℚ
  data_c : List ℚ

/-- Latest-value lookup bound to a threshold signal (term_k or term_d). -/
def topicVal : SigId → Env → Option RawVal
  | .kub, e => e.latest_k
  | .defl, e => e.latest_d

/-- Threshold setting bound to a threshold signal. -/
def thrOf : SigId → Settings → ℚ
  | .kub, st => st.t_signal_kub
  | .defl, st => st.t_signal_deflegmator

/-- An AlarmSink notification (alarm_message_with_sound call), tagged with
the data interpolated into the message. -/
inductive Alarm where
  | threshold (sid : SigId) (value thr : ℚ)
  | stability (variation thr avg : ℚ)
  deriving DecidableEq

/-- Evaluation failure: valueError models an uncaught Python ValueError
escaping from float(); outOfFuel is the artificial recursion bound of the
embedding, never reached with fuel at least 3. -/
inductive EvalErr where
  | valueError
  | outOfFuel
  deriving DecidableEq

/-- Backward scan of get_windowed_data (lines 1259-1265): the argument n
counts how many indices, from index n-1 downward, are still to be
examined; the scan returns i+1 for the first (largest) index i with
ts[i] < start_time, and 0 if the loop completes. -/
def scanStartIndex (ts : List ℚ) (start_time : ℚ) : ℕ → ℕ
  | 0 => 0
  | n + 1 => if ts.getD n 0 < start_time then n + 1 else scanStartIndex ts start_time n

/-- get_windowed_data (lines 1257-1267): slice the data deque from the
start index found by the backward scan over the timestamp deque. -/
def get_windowed_data (ts : List ℚ) (dat : List ℚ) (start_time : ℚ) : List ℚ :=
  dat.drop (scanStartIndex ts start_time ts.length)

/-- Python max over a nonempty list (the empty default is never used by
the evaluator, which guards with num_pairs >= 2). -/
def listMax : List ℚ → ℚ
  | [] => 0
  | x :: xs => xs.foldl max x

/-- Python min over a nonempty list. -/
def listMin : List ℚ → ℚ
  | [] => 0
  | x :: xs => xs.foldl min x

/-- Outcome of the pure part of the stability check, also serving as its
reported status: the branch taken after the monitoring-active test.
The stable case is the one that triggers. -/
inductive StabCore where
  | waitingData
  | belowGate (tk : ℚ)
  | insufficient (n : ℕ)
  | stable (variation avg : ℚ)
  | unstable (variation avg : ℚ)
  deriving DecidableEq

/-- The fixed gate TERM_K_70 (line 1233). -/
def TERM_K_70 : ℚ := 70

/-- start_time = now - period_seconds (line 1255). -/
def start_time (st : Settings) (env : Env) : ℚ :=
  env.now - st.period_seconds

/-- k_data_window (line 1269). -/
def k_data_window (st : Settings) (env : Env) : List ℚ :=
  get_windowed_data env.ts_k env.data_k (start_time st env)

/-- c_data_window (line 1270). -/
def c_data_window (st : Settings) (env : Env) : List ℚ :=
  get_windowed_data env.ts_c env.data_c (start_time st env)

/-- num_pairs (line 1273): positional pairing of the two windows. -/
def num_pairs (st : Settings) (env : Env) : ℕ :=
  min (k_data_window st env).length (c_data_window st env).length

/-- k_recent (line 1282): the last num_pairs samples of the K window. -/
def k_recent (st : Settings) (env : Env) : List ℚ :=
  (k_data_window st env).drop ((k_data_window st env).length - num_pairs st env)

/-- c_recent (line 1283). -/
def c_recent (st : Settings) (env : Env) : List ℚ :=
  (c_data_window st env).drop ((c_data_window st env).length - num_pairs st env)

/-- dts_in_window (line 1285): positional differences k - c. -/
def dts_in_window (st : Settings) (env : Env) : List ℚ :=
  List.zipWith (fun k c => k - c) (k_recent st env) (c_recent st env)

/-- variation (line 1287): spread of the paired differences. -/
def variation (st : Settings) (env : Env) : ℚ :=
  listMax (dts_in_window st env) - listMin (dts_in_window st env)

/-- avg_dT (line 1288). -/
def avg_dT (st : Settings) (env : Env) : ℚ :=
  (dts_in_window st env).sum / ((dts_in_window st env).length : ℚ)

/-- The pure computation of check_temperature_stability_signal after the
monitoring-active test (lines 1240-1302): parse the latest term_k value
(TypeError/ValueError caught as waiting), test the 70-degree gate, window
both channels, pair the last num_pairs samples positionally, and compare
the spread of dT = k - c with the delta_t threshold. -/
def stability_core (st : Settings) (env : Env) : StabCore :=
  match env.latest_k >>= pyFloat? with
  | none => .waitingData
  | some term_k =>
    if term_k ≤ TERM_K_70 then .belowGate term_k
    else if num_pairs st env < 2 then .insufficient (num_pairs st env)
    else if variation st env ≤ st.delta_t then
      .stable (variation st env) (avg_dT st env)
    else .unstable (variation st env) (avg_dT st env)

/-- Reported status of the stability check: disabled when monitoring is
off, otherwise the outcome of the pure computation. -/
inductive StabStatus where
  | disabled
  | core (c : StabCore)
  deriving DecidableEq

/-- check_temperature_stability_signal (lines 1224-1305): if monitoring is
not active report disabled; otherwise act on the outcome of the pure
computation, triggering (one-shot, with an AlarmSink call) exactly in the
stable case. -/
def check_temperature_stability_signal (st : Settings) (env : Env) (s : MState) :
    MState × List Alarm × StabStatus :=
  if s.stab.monitoring_active = false then (s, [], .disabled)
  else
    match stability_core st env with
    | .stable va avg =>
        (s.setStab ⟨false, true⟩, [.stability va st.delta_t avg], .core (.stable va avg))
    | c => (s, [], .core c)

/-- True exactly when an armed stability signal evaluated against this
environment and these settings would trigger. -/
def stabFires (st : Settings) (env : Env) : Bool :=
  match stability_core st env with
  | .stable _ _ => true
  | _ => false

/-- Reported status of a threshold signal check: the branch taken. -/
inductive ThreshStatus where
  | waitingData
  | monitoring (v thr : ℚ)
  | triggeredNow (v thr : ℚ)
  | inactive
  | autoResetDone
  deriving DecidableEq

/-- The generic threshold check _check_temperature_signal (lines
1142-1194), parameterised over the signal instance and over the
re-evaluation callback recur used by the silent auto-reset branch, which
models the body of reset_func followed by reset_stability_signal (each of
those sets its signal pair to armed/untriggered and then calls
check_signal_conditions).  float() applied to a non-numeric table entry
(lines 1165 and 1183) is an uncaught ValueError. -/
def _check_temperature_signal
    (recur : MState → Except EvalErr (MState × List Alarm))
    (sid : SigId) (st : Settings) (env : Env) (s : MState) :
    Except EvalErr (MState × List Alarm × ThreshStatus) :=
  let temp_value := topicVal sid env
  let threshold := thrOf sid st
  if (s.get sid).monitoring_active then
    match temp_value with
    | none => .ok (s, [], .waitingData)
    | some rv =>
      match pyFloat? rv with
      | none => .error .valueError
      | some v =>
        if threshold ≤ v then
          .ok (s.set sid ⟨false, true⟩, [.threshold sid v threshold],
               .triggeredNow v threshold)
        else
          .ok (s, [], .monitoring v threshold)
  else
    match temp_value with
    | some rv =>
      match pyFloat? rv with
      | none => .error .valueError
      | some v =>
        if v < threshold then
          match recur (s.set sid ⟨true, false⟩) with
          | .error e => .error e
          | .ok (s2, a1) =>
            match recur (s2.setStab ⟨true, false⟩) with
            | .error e => .error e
            | .ok (s4, a2) => .ok (s4, a1 ++ a2, .autoResetDone)
        else .ok (s, [], .inactive)
    | none => .ok (s, [], .inactive)

/-- check_signal_conditions (lines 1086-1091): evaluate the cube threshold
signal, then the condenser threshold signal, then the stability signal,
collecting all AlarmSink notifications.  The fuel bounds the
reset-and-re-evaluate recursion of the embedding. -/
def check_signal_conditions (st : Settings) (env : Env) :
    ℕ → MState → Except EvalErr (MState × List Alarm)
  | 0, _ => .error .outOfFuel
  | fuel + 1, s =>
    match _check_temperature_signal (check_signal_conditions st env fuel) .kub st env s with
    | .error e => .error e
    | .ok (s1, a1, _) =>
      match _check_temperature_signal (check_signal_conditions st env fuel) .defl st env s1 with
      | .error e => .error e
      | .ok (s2, a2, _) =>
        match check_temperature_stability_signal st env s2 with
        | (s3, a3, _) => .ok (s3, a1 ++ a2 ++ a3)

/-- reset_t_kub_signal (lines 1307-1313): re-arm the cube signal and
immediately re-evaluate everything. -/
def reset_t_kub_signal (st : Settings) (env : Env) (fuel : ℕ) (s : MState) :
    Except EvalErr (MState × List Alarm) :=
  check_signal_conditions st env fuel (s.set .kub ⟨true, false⟩)

/-- reset_t_deflegmator_signal (lines 1315-1321). -/
def reset_t_deflegmator_signal (st : Settings) (env : Env) (fuel : ℕ) (s : MState) :
    Except EvalErr (MState × List Alarm) :=
  check_signal_conditions st env fuel (s.set .defl ⟨true, false⟩)

/-- reset_stability_signal (lines 1323-1329). -/
def reset_stability_signal (st : Settings) (env : Env) (fuel : ℕ) (s : MState) :
    Except EvalErr (MState × List Alarm) :=
  check_signal_conditions st env fuel (s.setStab ⟨true, false⟩)

/-- The accepted-dialog path of open_settings_dialog (lines 784-815): diff
the old settings against the new ones, silently reset each signal whose
settings changed (each reset re-evaluates immediately), then re-evaluate
once more. -/
def open_settings_dialog (oldS newS : Settings) (env : Env) (fuel : ℕ) (s : MState) :
    Except EvalErr (MState × List Alarm) :=
  match (if oldS.t_signal_kub ≠ newS.t_signal_kub then
           reset_t_kub_signal newS env fuel s
         else .ok (s, [])) with
  | .error e => .error e
  | .ok (s1, a1) =>
    match (if oldS.t_signal_deflegmator ≠ newS.t_signal_deflegmator then
             reset_t_deflegmator_signal newS env fuel s1
           else .ok (s1, [])) with
    | .error e => .error e
    | .ok (s2, a2) =>
      match (if oldS.delta_t ≠ newS.delta_t ∨ oldS.period_seconds ≠ newS.period_seconds then
               reset_stability_signal newS env fuel s2
             else .ok (s2, [])) with
      | .error e => .error e
      | .ok (s3, a3) =>
        match check_signal_conditions newS env fuel s3 with
        | .error e => .error e
        | .ok (s4, a4) => .ok (s4, a1 ++ a2 ++ a3 ++ a4)

/-- handle_message (lines 923-971) restricted to the evaluator-relevant
effects: the latest-value table entry for the topic is overwritten with
the raw payload unconditionally; if the topic is a charted temperature
channel and the payload parses as a float, the sample is appended to that
channel buffers, otherwise the append is skipped.  Only the term_k and
term_c buffers (the ones read by the stability window) and the term_k and
term_d table entries (the ones read by the checks) are modelled. -/
def handle_message (topic : String) (payload : RawVal) (t : ℚ) (env : Env) : Env :=
  let env :=
    if topic = "term_k" then { env with latest_k := some payload }
    else if topic = "term_d" then { env with latest_d := some payload }
    else env
  match pyFloat? payload with
  | some v =>
    if topic = "term_k" then
      { env with ts_k := env.ts_k ++ [t], data_k := env.data_k ++ [v] }
    else if topic = "term_c" then
      { env with ts_c := env.ts_c ++ [t], data_c := env.data_c ++ [v] }
    else env
  | none => env

deriving instance DecidableEq for Except

/-! Basic facts about the state accessors. -/

@[simp]
theorem get_set_same (s : MState) (sid : SigId) (v : SigState) :
    (s.set sid v).get sid = v := by
  cases sid <;> rfl

@[simp]
theorem get_set_of_ne (s : MState) (sid sid' : SigId) (v : SigState) (h : sid ≠ sid') :
    (s.set sid v).get sid' = s.get sid' := by
  cases sid <;> cases sid' <;> simp_all [MState.set, MState.get]

@[simp]
theorem get_setStab (s : MState) (v : SigState) (sid : SigId) :
    (s.setStab v).get sid = s.get sid := by
  cases sid <;> rfl

@[simp]
theorem setStab_stab (s : MState) (v : SigState) : (s.setStab v).stab = v := rfl

@[simp]
theorem set_stab (s : MState) (sid : SigId) (v : SigState) :
    (s.set sid v).stab = s.stab := by
  cases sid <;> rfl

@[simp]
theorem exceptBind_ok {ε α β : Type} (a : α) (f : α → Except ε β) :
    (Except.ok a : Except ε α) >>= f = f a := rfl

@[simp]
theorem exceptBind_error {ε α β : Type} (e : ε) (f : α → Except ε β) :
    (Except.error e : Except ε α) >>= f = Except.error e := rfl

/-! The master preservation lemma: any state predicate Q closed under the
four primitive transitions the evaluator performs (threshold trigger,
threshold silent reset, stability reset, stability trigger), together with
an alarm predicate Bad never emitted by the allowed transitions, is
preserved by the whole evaluation and no Bad alarm is ever notified. -/

/-- Closure of a state predicate and an alarm predicate under the
threshold-trigger transition. -/
def TrigClosed (st : Settings) (env : Env) (Q : MState → Prop) (Bad : Alarm → Prop) : Prop :=
  ∀ s sid v, Q s → (s.get sid).monitoring_active = true →
    (topicVal sid env >>= pyFloat?) = some v → thrOf sid st ≤ v →
    Q (s.set sid ⟨false, true⟩) ∧ ¬ Bad (.threshold sid v (thrOf sid st))

/-- Closure of a state predicate under the silent threshold re-arm. -/
def ResetClosed (st : Settings) (env : Env) (Q : MState → Prop) : Prop :=
  ∀ s sid v, Q s → (s.get sid).monitoring_active = false →
    (topicVal sid env >>= pyFloat?) = some v → v < thrOf sid st →
    Q (s.set sid ⟨true, false⟩)

/-- Closure of a state predicate under the stability re-arm performed by
the silent threshold reset path (the guard facts carried here are those of
the enclosing auto-reset branch, which only constrain the environment). -/
def ResetStabClosed (st : Settings) (env : Env) (Q : MState → Prop) : Prop :=
  ∀ s sid v, Q s →
    (topicVal sid env >>= pyFloat?) = some v → v < thrOf sid st →
    Q (s.setStab ⟨true, false⟩)

/-- Closure of a state predicate and an alarm predicate under the
stability trigger. -/
def TrigStabClosed (st : Settings) (env : Env) (Q : MState → Prop) (Bad : Alarm → Prop) : Prop :=
  ∀ s va avg, Q s → s.stab.monitoring_active = true →
    stability_core st env = .stable va avg →
    Q (s.setStab ⟨false, true⟩) ∧ ¬ Bad (.stability va st.delta_t avg)

theorem stabcheck_master (st : Settings) (env : Env) (Q : MState → Prop)
    (Bad : Alarm → Prop) (hTrigStab : TrigStabClosed st env Q Bad) :
    ∀ s s' A stt, Q s → check_temperature_stability_signal st env s = (s', A, stt) →
      Q s' ∧ ∀ a ∈ A, ¬ Bad a := by
  intro s s' A stt hQ hres
  unfold check_temperature_stability_signal at hres
  split at hres
  · simp only [Prod.mk.injEq] at hres
    obtain ⟨rfl, rfl, rfl⟩ := hres
    exact ⟨hQ, by simp⟩
  · rename_i hact
    rw [Bool.not_eq_false] at hact
    split at hres
    · rename_i va avg hcore
      simp only [Prod.mk.injEq] at hres
      obtain ⟨rfl, rfl, rfl⟩ := hres
      obtain ⟨hQ', hBad⟩ := hTrigStab s va avg hQ hact hcore
      refine ⟨hQ', ?_⟩
      intro a ha
      simp only [List.mem_singleton] at ha
      subst ha
      exact hBad
    · simp only [Prod.mk.injEq] at hres
      obtain ⟨rfl, rfl, rfl⟩ := hres
      exact ⟨hQ, by simp⟩

theorem tempcheck_master (st : Settings) (env : Env) (Q : MState → Prop)
    (Bad : Alarm → Prop) (hTrig : TrigClosed st env Q Bad)
    (hReset : ResetClosed st env Q) (hResetStab : ResetStabClosed st env Q)
    (recur : MState → Except EvalErr (MState × List Alarm))
    (hrecur : ∀ s s' A, Q s → recur s = .ok (s', A) → Q s' ∧ ∀ a ∈ A, ¬ Bad a)
    (sid : SigId) :
    ∀ s s' A stt, Q s →
      _check_temperature_signal recur sid st env s = .ok (s', A, stt) →
      Q s' ∧ ∀ a ∈ A, ¬ Bad a := by
  intro s s' A stt hQ hres
  unfold _check_temperature_signal at hres
  cases hact : (s.get sid).monitoring_active with
  | true =>
    cases hrv : topicVal sid env with
    | none =>
      simp only [hact, hrv, if_true] at hres
      simp only [Except.ok.injEq, Prod.mk.injEq] at hres
      obtain ⟨rfl, rfl, rfl⟩ := hres
      exact ⟨hQ, by simp⟩
    | some rv =>
      cases hpv : pyFloat? rv with
      | none => simp [hact, hrv, hpv] at hres
      | some v =>
        have hparse : (topicVal sid env >>= pyFloat?) = some v := by
          rw [hrv]; simpa using hpv
        simp only [hact, hrv, hpv, if_true] at hres
        rcases le_or_lt (thrOf sid st) v with hle | hlt
        · rw [if_pos hle] at hres
          simp only [Except.ok.injEq, Prod.mk.injEq] at hres
          obtain ⟨rfl, rfl, rfl⟩ := hres
          obtain ⟨hQ', hBad⟩ := hTrig s sid v hQ hact hparse hle
          refine ⟨hQ', ?_⟩
          intro a ha
          simp only [List.mem_singleton] at ha
          subst ha
          exact hBad
        · rw [if_neg (not_le.mpr hlt)] at hres
          simp only [Except.ok.injEq, Prod.mk.injEq] at hres
          obtain ⟨rfl, rfl, rfl⟩ := hres
          exact ⟨hQ, by simp⟩
  | false =>
    cases hrv : topicVal sid env with
    | none =>
      simp only [hact, hrv, Bool.false_eq_true, if_false] at hres
      simp only [Except.ok.injEq, Prod.mk.injEq] at hres
      obtain ⟨rfl, rfl, rfl⟩ := hres
      exact ⟨hQ, by simp⟩
    | some rv =>
      cases hpv : pyFloat? rv with
      | none => simp [hact, hrv, hpv] at hres
      | some v =>
        have hparse : (topicVal sid env >>= pyFloat?) = some v := by
          rw [hrv]; simpa using hpv
        simp only [hact, hrv, hpv, Bool.false_eq_true, if_false] at hres
        rcases lt_or_le v (thrOf sid st) with hlt | hge
        · rw [if_pos hlt] at hres
          cases hrec1 : recur (s.set sid ⟨true, false⟩) with
          | error e => simp [hrec1] at hres
          | ok p =>
            obtain ⟨s2, a1⟩ := p
            simp only [hrec1] at hres
            cases hrec2 : recur (s2.setStab ⟨true, false⟩) with
            | error e => simp [hrec2] at hres
            | ok p2 =>
              obtain ⟨s4, a2⟩ := p2
              simp only [hrec2] at hres
              simp only [Except.ok.injEq, Prod.mk.injEq] at hres
              obtain ⟨rfl, rfl, rfl⟩ := hres
              have hQ1 : Q (s.set sid ⟨true, false⟩) := hReset s sid v hQ hact hparse hlt
              obtain ⟨hQ2, hB1⟩ := hrecur _ _ _ hQ1 hrec1
              have hQ3 : Q (s2.setStab ⟨true, false⟩) := hResetStab s2 sid v hQ2 hparse hlt
              obtain ⟨hQ4, hB2⟩ := hrecur _ _ _ hQ3 hrec2
              refine ⟨hQ4, ?_⟩
              intro a ha
              rcases List.mem_append.mp ha with h | h
              · exact hB1 a h
              · exact hB2 a h
        · rw [if_neg (not_lt.mpr hge)] at hres
          simp only [Except.ok.injEq, Prod.mk.injEq] at hres
          obtain ⟨rfl, rfl, rfl⟩ := hres
          exact ⟨hQ, by simp⟩

theorem check_master (st : Settings) (env : Env) (Q : MState → Prop)
    (Bad : Alarm → Prop) (hTrig : TrigClosed st env Q Bad)
    (hReset : ResetClosed st env Q) (hResetStab : ResetStabClosed st env Q)
    (hTrigStab : TrigStabClosed st env Q Bad) :
    ∀ fuel s s' A, Q s → check_signal_conditions st env fuel s = .ok (s', A) →
      Q s' ∧ ∀ a ∈ A, ¬ Bad a := by
  intro fuel
  induction fuel with
  | zero =>
    intro s s' A _ hres
    simp [check_signal_conditions] at hres
  | succ fuel ih =>
    intro s s' A hQ hres
    rw [check_signal_conditions] at hres
    have hrecur : ∀ t t' B, Q t →
        check_signal_conditions st env fuel t = .ok (t', B) →
        Q t' ∧ ∀ a ∈ B, ¬ Bad a :=
      fun t t' B hq h => ih t t' B hq h
    cases hk : _check_temperature_signal (check_signal_conditions st env fuel) .kub st env s with
    | error e => simp [hk] at hres
    | ok p1 =>
      obtain ⟨s1, a1, stt1⟩ := p1
      simp only [hk] at hres
      cases hd : _check_temperature_signal (check_signal_conditions st env fuel) .defl st env s1 with
      | error e => simp [hd] at hres
      | ok p2 =>
        obtain ⟨s2, a2, stt2⟩ := p2
        simp only [hd] at hres
        rcases hs : check_temperature_stability_signal st env s2 with ⟨s3, a3, stt3⟩
        simp only [hs] at hres
        simp only [Except.ok.injEq, Prod.mk.injEq] at hres
        obtain ⟨rfl, rfl⟩ := hres
        obtain ⟨hQ1, hB1⟩ :=
          tempcheck_master st env Q Bad hTrig hReset hResetStab _ hrecur .kub
            s s1 a1 stt1 hQ hk
        obtain ⟨hQ2, hB2⟩ :=
          tempcheck_master st env Q Bad hTrig hReset hResetStab _ hrecur .defl
            s1 s2 a2 stt2 hQ1 hd
        obtain ⟨hQ3, hB3⟩ :=
          stabcheck_master st env Q Bad hTrigStab s2 s3 a3 stt3 hQ2 hs
        refine ⟨hQ3, ?_⟩
        intro a ha
        simp only [List.mem_append] at ha
        rcases ha with (h | h) | h
        · exact hB1 a h
        · exact hB2 a h
        · exact hB3 a h

/-! Instantiations of the master lemma. -/

/-- The one-shot invariant of the data model: a triggered signal is no
longer monitoring. -/
def SigInv (s : MState) : Prop :=
  (s.kub.triggered = true → s.kub.monitoring_active = false) ∧
  (s.defl.triggered = true → s.defl.monitoring_active = false) ∧
  (s.stab.triggered = true → s.stab.monitoring_active = false)

theorem sigInv_set (s : MState) (sid : SigId) (v : SigState)
    (h : SigInv s) (hv : v.triggered = true → v.monitoring_active = false) :
    SigInv (s.set sid v) := by
  obtain ⟨h1, h2, h3⟩ := h
  cases sid
  · exact ⟨hv, h2, h3⟩
  · exact ⟨h1, hv, h3⟩

theorem sigInv_setStab (s : MState) (v : SigState)
    (h : SigInv s) (hv : v.triggered = true → v.monitoring_active = false) :
    SigInv (s.setStab v) :=
  ⟨h.1, h.2.1, hv⟩

/-- Evaluation preserves the one-shot invariant. -/
theorem check_signal_conditions_SigInv (st : Settings) (env : Env) (fuel : ℕ)
    (s s' : MState) (A : List Alarm) (h : SigInv s)
    (hres : check_signal_conditions st env fuel s = .ok (s', A)) : SigInv s' := by
  refine (check_master st env SigInv (fun _ => False) ?_ ?_ ?_ ?_ fuel s s' A h hres).1
  · intro s0 sid v hQ _ _ _
    exact ⟨sigInv_set s0 sid ⟨false, true⟩ hQ (fun _ => rfl), not_false⟩
  · intro s0 sid v hQ _ _ _
    exact sigInv_set s0 sid ⟨true, false⟩ hQ (fun h => nomatch h)
  · intro s0 sid v hQ _ _
    exact sigInv_setStab s0 ⟨true, false⟩ hQ (fun h => nomatch h)
  · intro s0 va avg hQ _ _
    exact ⟨sigInv_setStab s0 ⟨false, true⟩ hQ (fun _ => rfl), not_false⟩

/-- An alarm belonging to a given threshold signal. -/
def thrAlarm (sid : SigId) (a : Alarm) : Prop :=
  ∃ v t, a = .threshold sid v t

/-- An alarm belonging to the stability signal. -/
def stabAlarm (a : Alarm) : Prop :=
  ∃ va d avg, a = .stability va d avg

/-- Closure bundle for the predicate pinning one threshold signal to a
fixed armed state while its latest value is absent or parses below its
threshold. -/
theorem pin_armed_closures (st : Settings) (env : Env) (sid : SigId) (c : SigState)
    (hc : c.monitoring_active = true)
    (hbelow : ∀ v, (topicVal sid env >>= pyFloat?) = some v → v < thrOf sid st) :
    TrigClosed st env (fun t => t.get sid = c) (thrAlarm sid) ∧
    ResetClosed st env (fun t => t.get sid = c) ∧
    ResetStabClosed st env (fun t => t.get sid = c) ∧
    TrigStabClosed st env (fun t => t.get sid = c) (thrAlarm sid) := by
  refine ⟨?_, ?_, ?_, ?_⟩
  · intro s0 sid' v hQ hact hparse hle
    by_cases h : sid' = sid
    · subst h
      exact absurd (hbelow v hparse) (not_lt.mpr hle)
    · refine ⟨by simp only [get_set_of_ne s0 sid' sid _ h]; exact hQ, ?_⟩
      rintro ⟨v', t', heq⟩
      injection heq with hsid hv ht
      exact h hsid
  · intro s0 sid' v hQ hact hparse hlt
    by_cases h : sid' = sid
    · subst h
      rw [hQ, hc] at hact
      exact absurd hact (by simp)
    · simp only [get_set_of_ne s0 sid' sid _ h]
      exact hQ
  · intro s0 sid' v hQ _ _
    simp only [get_setStab]
    exact hQ
  · intro s0 va avg hQ _ _
    refine ⟨by simp only [get_setStab]; exact hQ, ?_⟩
    rintro ⟨v', t', heq⟩
    exact Alarm.noConfusion heq

/-- A threshold signal that is armed while its latest value is absent or
parses below its threshold is left untouched by a whole evaluation pass,
and no alarm is notified for it. -/
theorem csc_armed_stable (st : Settings) (env : Env) (sid : SigId) (c : SigState)
    (hc : c.monitoring_active = true)
    (hbelow : ∀ v, (topicVal sid env >>= pyFloat?) = some v → v < thrOf sid st) :
    ∀ fuel s s' A, s.get sid = c →
      check_signal_conditions st env fuel s = .ok (s', A) →
      s'.get sid = c ∧ ∀ a ∈ A, ¬ thrAlarm sid a := by
  obtain ⟨h1, h2, h3, h4⟩ := pin_armed_closures st env sid c hc hbelow
  exact check_master st env (fun t => t.get sid = c) (thrAlarm sid) h1 h2 h3 h4

/-- Closure bundle for the predicate pinning one threshold signal to a
fixed non-monitoring state while its latest value is absent or parses at
or above its threshold. -/
theorem pin_inactive_closures (st : Settings) (env : Env) (sid : SigId) (c : SigState)
    (hc : c.monitoring_active = false)
    (hhigh : ∀ v, (topicVal sid env >>= pyFloat?) = some v → thrOf sid st ≤ v) :
    TrigClosed st env (fun t => t.get sid = c) (thrAlarm sid) ∧
    ResetClosed st env (fun t => t.get sid = c) ∧
    ResetStabClosed st env (fun t => t.get sid = c) ∧
    TrigStabClosed st env (fun t => t.get sid = c) (thrAlarm sid) := by
  refine ⟨?_, ?_, ?_, ?_⟩
  · intro s0 sid' v hQ hact hparse hle
    by_cases h : sid' = sid
    · subst h
      rw [hQ, hc] at hact
      exact absurd hact (by simp)
    · refine ⟨by simp only [get_set_of_ne s0 sid' sid _ h]; exact hQ, ?_⟩
      rintro ⟨v', t', heq⟩
      injection heq with hsid hv ht
      exact h hsid
  · intro s0 sid' v hQ hact hparse hlt
    by_cases h : sid' = sid
    · subst h
      exact absurd (hhigh v hparse) (not_le.mpr hlt)
    · simp only [get_set_of_ne s0 sid' sid _ h]
      exact hQ
  · intro s0 sid' v hQ _ _
    simp only [get_setStab]
    exact hQ
  · intro s0 va avg hQ _ _
    refine ⟨by simp only [get_setStab]; exact hQ, ?_⟩
    rintro ⟨v', t', heq⟩
    exact Alarm.noConfusion heq

/-- A threshold signal that is not monitoring while its latest value is
absent or parses at or above its threshold is left untouched by a whole
evaluation pass, and no alarm is notified for it. -/
theorem csc_inactive_stable (st : Settings) (env : Env) (sid : SigId) (c : SigState)
    (hc : c.monitoring_active = false)
    (hhigh : ∀ v, (topicVal sid env >>= pyFloat?) = some v → thrOf sid st ≤ v) :
    ∀ fuel s s' A, s.get sid = c →
      check_signal_conditions st env fuel s = .ok (s', A) →
      s'.get sid = c ∧ ∀ a ∈ A, ¬ thrAlarm sid a := by
  obtain ⟨h1, h2, h3, h4⟩ := pin_inactive_closures st env sid c hc hhigh
  exact check_master st env (fun t => t.get sid = c) (thrAlarm sid) h1 h2 h3 h4

/-- A single threshold check preserves any predicate satisfying the
closure conditions, when its re-evaluation callback is the evaluator at
some fuel. -/
theorem tempcheck_preserve (st : Settings) (env : Env) (Q : MState → Prop)
    (Bad : Alarm → Prop) (hTrig : TrigClosed st env Q Bad)
    (hReset : ResetClosed st env Q) (hResetStab : ResetStabClosed st env Q)
    (hTrigStab : TrigStabClosed st env Q Bad) (fuel : ℕ) (sid : SigId) :
    ∀ s s' A stt, Q s →
      _check_temperature_signal (check_signal_conditions st env fuel) sid st env s =
        .ok (s', A, stt) →
      Q s' ∧ ∀ a ∈ A, ¬ Bad a :=
  tempcheck_master st env Q Bad hTrig hReset hResetStab _
    (fun t t' B hq h => check_master st env Q Bad hTrig hReset hResetStab hTrigStab fuel t t' B hq h)
    sid

/-- Closure bundle for the predicate keeping the stability signal armed
while the stability condition does not hold. -/
theorem stab_armed_closures (st : Settings) (env : Env)
    (hnf : stabFires st env = false) :
    TrigClosed st env (fun t => t.stab = ⟨true, false⟩) (fun _ => False) ∧
    ResetClosed st env (fun t => t.stab = ⟨true, false⟩) ∧
    ResetStabClosed st env (fun t => t.stab = ⟨true, false⟩) ∧
    TrigStabClosed st env (fun t => t.stab = ⟨true, false⟩) (fun _ => False) := by
  refine ⟨?_, ?_, ?_, ?_⟩
  · intro s0 sid v hQ0 _ _ _
    exact ⟨by simp only [set_stab]; exact hQ0, not_false⟩
  · intro s0 sid v hQ0 _ _ _
    simp only [set_stab]
    exact hQ0
  · intro s0 sid v hQ0 _ _
    rfl
  · intro s0 va avg hQ0 _ hcore
    rw [stabFires, hcore] at hnf
    exact absurd hnf (by simp)

/-- When the stability condition does not currently hold, an armed
stability signal stays armed across a whole evaluation pass (in
particular across the stability resets of the silent auto-reset paths). -/
theorem csc_stab_armed_stable (st : Settings) (env : Env)
    (hnf : stabFires st env = false) :
    ∀ fuel s s' A, s.stab = ⟨true, false⟩ →
      check_signal_conditions st env fuel s = .ok (s', A) →
      s'.stab = ⟨true, false⟩ := by
  obtain ⟨h1, h2, h3, h4⟩ := stab_armed_closures st env hnf
  intro fuel s s' A hQ hres
  exact (check_master st env (fun t => t.stab = ⟨true, false⟩) (fun _ => False)
    h1 h2 h3 h4 fuel s s' A hQ hres).1

/-- While no latest value sits strictly below its threshold, a triggered
stability signal stays triggered across evaluation passes and no further
stability alarm is notified. -/
theorem csc_stab_triggered_stable (st : Settings) (env : Env)
    (hhigh : ∀ sid v, (topicVal sid env >>= pyFloat?) = some v → thrOf sid st ≤ v) :
    ∀ fuel s s' A, s.stab = ⟨false, true⟩ →
      check_signal_conditions st env fuel s = .ok (s', A) →
      s'.stab = ⟨false, true⟩ ∧ ∀ a ∈ A, ¬ stabAlarm a := by
  refine check_master st env (fun t => t.stab = ⟨false, true⟩) stabAlarm ?_ ?_ ?_ ?_
  · intro s0 sid v hQ _ _ _
    refine ⟨by simp only [set_stab]; exact hQ, ?_⟩
    rintro ⟨va, d, avg, heq⟩
    exact Alarm.noConfusion heq
  · intro s0 sid v hQ _ _ _
    simp only [set_stab]
    exact hQ
  · intro s0 sid v hQ hparse hlt
    exact absurd (hhigh sid v hparse) (not_le.mpr hlt)
  · intro s0 va avg hQ hact _
    rw [hQ] at hact
    exact absurd hact (by simp)

/-! Totality of evaluation: the fuel parameter of the embedding is an
artifact, and fuel 3 always suffices when the latest values parse. -/

/-- The silent auto-reset condition of a threshold signal: monitoring off
while the latest value parses strictly below the threshold. -/
def autoClearB (sid : SigId) (st : Settings) (env : Env) (s : MState) : Bool :=
  !(s.get sid).monitoring_active &&
    (match topicVal sid env >>= pyFloat? with
     | some v => decide (v < thrOf sid st)
     | none => false)

theorem autoClearB_set_armed (sid : SigId) (st : Settings) (env : Env) (s : MState) :
    autoClearB sid st env (s.set sid ⟨true, false⟩) = false := by
  simp [autoClearB]

theorem autoClearB_set_other (sid sid' : SigId) (h : sid' ≠ sid)
    (st : Settings) (env : Env) (s : MState) (v : SigState) :
    autoClearB sid st env (s.set sid' v) = autoClearB sid st env s := by
  simp [autoClearB, get_set_of_ne s sid' sid v h]

theorem autoClearB_setStab (sid : SigId) (st : Settings) (env : Env)
    (s : MState) (v : SigState) :
    autoClearB sid st env (s.setStab v) = autoClearB sid st env s := by
  simp [autoClearB]

/-- Evaluation never creates a new auto-reset condition. -/
theorem csc_autoClear_false (st : Settings) (env : Env) (sid : SigId) :
    ∀ fuel s s' A, autoClearB sid st env s = false →
      check_signal_conditions st env fuel s = .ok (s', A) →
      autoClearB sid st env s' = false := by
  intro fuel s s' A hQ hres
  refine (check_master st env (fun t => autoClearB sid st env t = false) (fun _ => False)
    ?_ ?_ ?_ ?_ fuel s s' A hQ hres).1
  · intro s0 sid' v hQ0 hact hparse hle
    refine ⟨?_, not_false⟩
    show autoClearB sid st env (s0.set sid' ⟨false, true⟩) = false
    by_cases h : sid' = sid
    · subst h
      simp [autoClearB, hparse, not_lt.mpr hle]
    · rw [autoClearB_set_other sid sid' h]
      exact hQ0
  · intro s0 sid' v hQ0 hact hparse hlt
    show autoClearB sid st env (s0.set sid' ⟨true, false⟩) = false
    by_cases h : sid' = sid
    · subst h
      exact autoClearB_set_armed _ st env s0
    · rw [autoClearB_set_other sid sid' h]
      exact hQ0
  · intro s0 sid' v hQ0 _ _
    show autoClearB sid st env (s0.setStab ⟨true, false⟩) = false
    rw [autoClearB_setStab]
    exact hQ0
  · intro s0 va avg hQ0 _ _
    refine ⟨?_, not_false⟩
    show autoClearB sid st env (s0.setStab ⟨false, true⟩) = false
    rw [autoClearB_setStab]
    exact hQ0

/-- Number of threshold signals currently in the auto-reset condition:
bounds the depth of the reset recursion still possible. -/
def clearCount (st : Settings) (env : Env) (s : MState) : ℕ :=
  (if autoClearB .kub st env s = true then 1 else 0) +
  (if autoClearB .defl st env s = true then 1 else 0)

theorem flag_le (b b' : Bool) (h : b = false → b' = false) :
    (if b' = true then 1 else 0) ≤ (if b = true then 1 else 0) := by
  cases b
  · simp [h rfl]
  · cases b' <;> simp

theorem clearCount_le_of (st : Settings) (env : Env) (s s' : MState)
    (hmain : ∀ sid, autoClearB sid st env s = false → autoClearB sid st env s' = false) :
    clearCount st env s' ≤ clearCount st env s :=
  Nat.add_le_add (flag_le _ _ (hmain .kub)) (flag_le _ _ (hmain .defl))

theorem clearCount_mono (st : Settings) (env : Env) (fuel : ℕ) (s s' : MState)
    (A : List Alarm)
    (hres : check_signal_conditions st env fuel s = .ok (s', A)) :
    clearCount st env s' ≤ clearCount st env s :=
  clearCount_le_of st env s s'
    (fun sid h => csc_autoClear_false st env sid fuel s s' A h hres)

theorem clearCount_set_armed (st : Settings) (env : Env) (sid : SigId) (s : MState)
    (h : autoClearB sid st env s = true) :
    clearCount st env (s.set sid ⟨true, false⟩) + 1 ≤ clearCount st env s := by
  cases sid
  · rw [clearCount, clearCount,
      autoClearB_set_armed .kub st env s,
      autoClearB_set_other .defl .kub (by decide) st env s ⟨true, false⟩, h]
    cases hdd : autoClearB .defl st env s <;> simp [hdd]
  · rw [clearCount, clearCount,
      autoClearB_set_armed .defl st env s,
      autoClearB_set_other .kub .defl (by decide) st env s ⟨true, false⟩, h]
    cases hkk : autoClearB .kub st env s <;> simp [hkk]

theorem clearCount_setStab (st : Settings) (env : Env) (s : MState) (v : SigState) :
    clearCount st env (s.setStab v) = clearCount st env s := by
  rw [clearCount, clearCount, autoClearB_setStab, autoClearB_setStab]

theorem clearCount_le_two (st : Settings) (env : Env) (s : MState) :
    clearCount st env s ≤ 2 := by
  rw [clearCount]
  split <;> split <;> omega

/-- All present latest values parse as floats. -/
def goodTable (env : Env) : Prop :=
  ∀ sid rv, topicVal sid env = some rv → ∃ q, rv = RawVal.num q

theorem tempcheck_total (st : Settings) (env : Env) (hgood : goodTable env) (fuel : ℕ)
    (ih : ∀ t, clearCount st env t < fuel →
      ∃ r, check_signal_conditions st env fuel t = .ok r)
    (sid : SigId) (s : MState) (hcount : clearCount st env s ≤ fuel) :
    ∃ s' A stt,
      _check_temperature_signal (check_signal_conditions st env fuel) sid st env s =
        .ok (s', A, stt) ∧ clearCount st env s' ≤ clearCount st env s := by
  cases hact : (s.get sid).monitoring_active with
  | true =>
    cases hrv : topicVal sid env with
    | none =>
      refine ⟨s, [], .waitingData, ?_, le_refl _⟩
      simp [_check_temperature_signal, hact, hrv]
    | some rv =>
      obtain ⟨q, rfl⟩ := hgood sid rv hrv
      have hparse : (topicVal sid env >>= pyFloat?) = some q := by
        rw [hrv]; rfl
      rcases le_or_lt (thrOf sid st) q with hle | hlt
      · refine ⟨s.set sid ⟨false, true⟩, [.threshold sid q (thrOf sid st)],
          .triggeredNow q (thrOf sid st), ?_, ?_⟩
        · simp [_check_temperature_signal, hact, hrv, pyFloat?, hle]
        · refine clearCount_le_of st env s _ ?_
          intro sid2 h2
          by_cases he : sid2 = sid
          · subst he
            simp [autoClearB, hparse, not_lt.mpr hle]
          · rw [autoClearB_set_other sid2 sid (fun hh => he hh.symm) st env s ⟨false, true⟩]
            exact h2
      · refine ⟨s, [], .monitoring q (thrOf sid st), ?_, le_refl _⟩
        simp [_check_temperature_signal, hact, hrv, pyFloat?, not_le.mpr hlt]
  | false =>
    cases hrv : topicVal sid env with
    | none =>
      refine ⟨s, [], .inactive, ?_, le_refl _⟩
      simp [_check_temperature_signal, hact, hrv]
    | some rv =>
      obtain ⟨q, rfl⟩ := hgood sid rv hrv
      rcases lt_or_le q (thrOf sid st) with hlt | hge
      · have hA : autoClearB sid st env s = true := by
          simp [autoClearB, hact, hrv, pyFloat?, hlt]
        have h1 := clearCount_set_armed st env sid s hA
        have hlt1 : clearCount st env (s.set sid ⟨true, false⟩) < fuel := by omega
        obtain ⟨r1, hrec1⟩ := ih _ hlt1
        obtain ⟨s2, a1⟩ := r1
        have hm1 := clearCount_mono st env fuel _ s2 a1 hrec1
        have h3 := clearCount_setStab st env s2 (⟨true, false⟩ : SigState)
        have hlt2 : clearCount st env (s2.setStab ⟨true, false⟩) < fuel := by omega
        obtain ⟨r2, hrec2⟩ := ih _ hlt2
        obtain ⟨s4, a2⟩ := r2
        have hm2 := clearCount_mono st env fuel _ s4 a2 hrec2
        refine ⟨s4, a1 ++ a2, .autoResetDone, ?_, by omega⟩
        simp [_check_temperature_signal, hact, hrv, pyFloat?, hlt, hrec1, hrec2]
      · refine ⟨s, [], .inactive, ?_, le_refl _⟩
        simp [_check_temperature_signal, hact, hrv, pyFloat?, not_lt.mpr hge]

/-- The stability check never changes the threshold components, hence the
measure. -/
theorem stabcheck_clearCount (st : Settings) (env : Env) (s s' : MState)
    (A : List Alarm) (stt : StabStatus)
    (hres : check_temperature_stability_signal st env s = (s', A, stt)) :
    clearCount st env s' = clearCount st env s := by
  unfold check_temperature_stability_signal at hres
  split at hres
  · simp only [Prod.mk.injEq] at hres
    obtain ⟨rfl, rfl, rfl⟩ := hres
    rfl
  · split at hres <;>
      (simp only [Prod.mk.injEq] at hres; obtain ⟨rfl, rfl, rfl⟩ := hres)
    · exact clearCount_setStab st env s _
    · rfl

/-- Evaluation terminates (with no fuel exhaustion) whenever the fuel
exceeds the number of pending auto-reset conditions. -/
theorem check_signal_conditions_total (st : Settings) (env : Env)
    (hgood : goodTable env) :
    ∀ fuel s, clearCount st env s < fuel →
      ∃ r, check_signal_conditions st env fuel s = .ok r := by
  intro fuel
  induction fuel with
  | zero =>
    intro s h
    exact absurd h (Nat.not_lt_zero _)
  | succ fuel ih =>
    intro s hcount
    have hc : clearCount st env s ≤ fuel := Nat.lt_succ_iff.mp hcount
    obtain ⟨s1, a1, stt1, hk, hc1⟩ := tempcheck_total st env hgood fuel ih .kub s hc
    obtain ⟨s2, a2, stt2, hd, hc2⟩ :=
      tempcheck_total st env hgood fuel ih .defl s1 (le_trans hc1 hc)
    rcases hs : check_temperature_stability_signal st env s2 with ⟨s3, a3, stt3⟩
    refine ⟨(s3, a1 ++ a2 ++ a3), ?_⟩
    rw [check_signal_conditions]
    simp [hk, hd, hs]

/-- Fuel 3 (and hence any larger fuel) always suffices on a parseable
latest-value table. -/
theorem check_signal_conditions_total_three (st : Settings) (env : Env)
    (hgood : goodTable env) (fuel : ℕ) (s : MState) :
    ∃ r, check_signal_conditions st env (fuel + 3) s = .ok r :=
  check_signal_conditions_total st env hgood (fuel + 3) s
    (by have := clearCount_le_two st env s; omega)

/-! The auto-clear behaviour of a threshold signal. -/

/-- The stability check leaves both threshold components unchanged and
notifies no threshold alarm. -/
theorem stabcheck_pres (st : Settings) (env : Env) (sid : SigId) :
    ∀ s s' A stt, check_temperature_stability_signal st env s = (s', A, stt) →
      s'.get sid = s.get sid ∧ ∀ a ∈ A, ¬ thrAlarm sid a := by
  intro s s' A stt hres
  unfold check_temperature_stability_signal at hres
  split at hres
  · simp only [Prod.mk.injEq] at hres
    obtain ⟨rfl, rfl, rfl⟩ := hres
    exact ⟨rfl, by simp⟩
  · split at hres <;>
      (simp only [Prod.mk.injEq] at hres; obtain ⟨rfl, rfl, rfl⟩ := hres)
    · refine ⟨get_setStab s _ sid, ?_⟩
      intro a ha
      simp only [List.mem_singleton] at ha
      subst ha
      rintro ⟨v', t', heq⟩
      exact Alarm.noConfusion heq
    · exact ⟨rfl, by simp⟩

/-- Closure bundle for a threshold signal known to be either still
triggered or already re-armed, while its latest value parses strictly
below its threshold. -/
theorem disj_closures (st : Settings) (env : Env) (sid : SigId)
    (hbelow : ∀ v, (topicVal sid env >>= pyFloat?) = some v → v < thrOf sid st) :
    TrigClosed st env
      (fun t => t.get sid = ⟨false, true⟩ ∨ t.get sid = ⟨true, false⟩) (thrAlarm sid) ∧
    ResetClosed st env
      (fun t => t.get sid = ⟨false, true⟩ ∨ t.get sid = ⟨true, false⟩) ∧
    ResetStabClosed st env
      (fun t => t.get sid = ⟨false, true⟩ ∨ t.get sid = ⟨true, false⟩) ∧
    TrigStabClosed st env
      (fun t => t.get sid = ⟨false, true⟩ ∨ t.get sid = ⟨true, false⟩) (thrAlarm sid) := by
  refine ⟨?_, ?_, ?_, ?_⟩
  · intro s0 sid' v hQ hact hparse hle
    by_cases h : sid' = sid
    · subst h
      exact absurd (hbelow v hparse) (not_lt.mpr hle)
    · refine ⟨?_, ?_⟩
      · show (s0.set sid' _).get sid = _ ∨ (s0.set sid' _).get sid = _
        rw [get_set_of_ne s0 sid' sid _ h]
        exact hQ
      · rintro ⟨v', t', heq⟩
        injection heq with hsid hv ht
        exact h hsid
  · intro s0 sid' v hQ hact hparse hlt
    by_cases h : sid' = sid
    · subst h
      simp [get_set_same]
    · show (s0.set sid' _).get sid = _ ∨ (s0.set sid' _).get sid = _
      rw [get_set_of_ne s0 sid' sid _ h]
      exact hQ
  · intro s0 sid' v hQ _ _
    simp only [get_setStab]
    exact hQ
  · intro s0 va avg hQ _ _
    refine ⟨?_, ?_⟩
    · simp only [get_setStab]
      exact hQ
    · rintro ⟨v', t', heq⟩
      exact Alarm.noConfusion heq

/-- The decisive step of the auto-clear behaviour: a threshold check
reached while its signal is triggered (or already re-armed) and its latest
value parses strictly below the threshold leaves the signal armed and
untriggered and notifies no alarm for it. -/
theorem tempcheck_clears (st : Settings) (env : Env) (sid : SigId) (v : ℚ)
    (hparse : (topicVal sid env >>= pyFloat?) = some v) (hlt : v < thrOf sid st)
    (fuel : ℕ) :
    ∀ s s' A stt,
      (s.get sid = ⟨false, true⟩ ∨ s.get sid = ⟨true, false⟩) →
      _check_temperature_signal (check_signal_conditions st env fuel) sid st env s =
        .ok (s', A, stt) →
      s'.get sid = ⟨true, false⟩ ∧ ∀ a ∈ A, ¬ thrAlarm sid a := by
  intro s s' A stt hQ hres
  have hbelow : ∀ w, (topicVal sid env >>= pyFloat?) = some w → w < thrOf sid st := by
    intro w hw
    rw [hparse] at hw
    injection hw with h
    exact h ▸ hlt
  obtain ⟨rv, hrv, hpv⟩ : ∃ rv, topicVal sid env = some rv ∧ pyFloat? rv = some v := by
    cases htv : topicVal sid env with
    | none => rw [htv] at hparse; exact absurd hparse (by simp)
    | some rv => rw [htv] at hparse; exact ⟨rv, rfl, by simpa using hparse⟩
  rcases hQ with hT | hA
  · unfold _check_temperature_signal at hres
    simp only [hT, hrv, hpv, Bool.false_eq_true, if_false] at hres
    rw [if_pos hlt] at hres
    cases hrec1 : check_signal_conditions st env fuel (s.set sid ⟨true, false⟩) with
    | error e => simp [hrec1] at hres
    | ok p1 =>
      obtain ⟨s2, a1⟩ := p1
      simp only [hrec1] at hres
      cases hrec2 : check_signal_conditions st env fuel (s2.setStab ⟨true, false⟩) with
      | error e => simp [hrec2] at hres
      | ok p2 =>
        obtain ⟨s4, a2⟩ := p2
        simp only [hrec2] at hres
        simp only [Except.ok.injEq, Prod.mk.injEq] at hres
        obtain ⟨rfl, rfl, rfl⟩ := hres
        obtain ⟨hg2, hB1⟩ :=
          csc_armed_stable st env sid ⟨true, false⟩ rfl hbelow fuel _ s2 a1
            (get_set_same s sid _) hrec1
        obtain ⟨hg4, hB2⟩ :=
          csc_armed_stable st env sid ⟨true, false⟩ rfl hbelow fuel _ s4 a2
            (by rw [get_setStab]; exact hg2) hrec2
        refine ⟨hg4, ?_⟩
        intro a ha
        rcases List.mem_append.mp ha with h | h
        · exact hB1 a h
        · exact hB2 a h
  · unfold _check_temperature_signal at hres
    simp only [hA, hrv, hpv, if_true] at hres
    rw [if_neg (not_le.mpr hlt)] at hres
    simp only [Except.ok.injEq, Prod.mk.injEq] at hres
    obtain ⟨rfl, rfl, rfl⟩ := hres
    exact ⟨hA, by simp⟩

/-- Auto-clear across a full evaluation: a threshold signal that is
triggered (or otherwise not monitoring) while its latest value parses
strictly below its threshold ends any successful evaluation pass armed and
untriggered, with no alarm notified for it. -/
theorem csc_auto_clears (st : Settings) (env : Env) (sid : SigId) (v : ℚ)
    (hparse : (topicVal sid env >>= pyFloat?) = some v) (hlt : v < thrOf sid st) :
    ∀ fuel s s' A,
      (s.get sid = ⟨false, true⟩ ∨ s.get sid = ⟨true, false⟩) →
      check_signal_conditions st env fuel s = .ok (s', A) →
      s'.get sid = ⟨true, false⟩ ∧ ∀ a ∈ A, ¬ thrAlarm sid a := by
  intro fuel s s' A hQ hres
  have hbelow : ∀ w, (topicVal sid env >>= pyFloat?) = some w → w < thrOf sid st := by
    intro w hw
    rw [hparse] at hw
    injection hw with h
    exact h ▸ hlt
  cases fuel with
  | zero => simp [check_signal_conditions] at hres
  | succ fuel =>
    rw [check_signal_conditions] at hres
    obtain ⟨hp1, hp2, hp3, hp4⟩ := pin_armed_closures st env sid ⟨true, false⟩ rfl hbelow
    obtain ⟨hd1, hd2, hd3, hd4⟩ := disj_closures st env sid hbelow
    cases sid with
    | kub =>
      cases hk : _check_temperature_signal (check_signal_conditions st env fuel) .kub st env s with
      | error e => simp [hk] at hres
      | ok p1 =>
        obtain ⟨s1, a1, stt1⟩ := p1
        simp only [hk] at hres
        obtain ⟨hg1, hB1⟩ := tempcheck_clears st env .kub v hparse hlt fuel s s1 a1 stt1 hQ hk
        cases hd : _check_temperature_signal (check_signal_conditions st env fuel) .defl st env s1 with
        | error e => simp [hd] at hres
        | ok p2 =>
          obtain ⟨s2, a2, stt2⟩ := p2
          simp only [hd] at hres
          obtain ⟨hg2, hB2⟩ :=
            tempcheck_preserve st env _ _ hp1 hp2 hp3 hp4 fuel .defl s1 s2 a2 stt2 hg1 hd
          rcases hs : check_temperature_stability_signal st env s2 with ⟨s3, a3, stt3⟩
          simp only [hs] at hres
          simp only [Except.ok.injEq, Prod.mk.injEq] at hres
          obtain ⟨rfl, rfl⟩ := hres
          obtain ⟨hg3, hB3⟩ := stabcheck_pres st env .kub s2 s3 a3 stt3 hs
          refine ⟨hg3.trans hg2, ?_⟩
          intro a ha
          simp only [List.mem_append] at ha
          rcases ha with (h | h) | h
          · exact hB1 a h
          · exact hB2 a h
          · exact hB3 a h
    | defl =>
      cases hk : _check_temperature_signal (check_signal_conditions st env fuel) .kub st env s with
      | error e => simp [hk] at hres
      | ok p1 =>
        obtain ⟨s1, a1, stt1⟩ := p1
        simp only [hk] at hres
        obtain ⟨hg1, hB1⟩ :=
          tempcheck_preserve st env _ _ hd1 hd2 hd3 hd4 fuel .kub s s1 a1 stt1 hQ hk
        cases hd : _check_temperature_signal (check_signal_conditions st env fuel) .defl st env s1 with
        | error e => simp [hd] at hres
        | ok p2 =>
          obtain ⟨s2, a2, stt2⟩ := p2
          simp only [hd] at hres
          obtain ⟨hg2, hB2⟩ := tempcheck_clears st env .defl v hparse hlt fuel s1 s2 a2 stt2 hg1 hd
          rcases hs : check_temperature_stability_signal st env s2 with ⟨s3, a3, stt3⟩
          simp only [hs] at hres
          simp only [Except.ok.injEq, Prod.mk.injEq] at hres
          obtain ⟨rfl, rfl⟩ := hres
          obtain ⟨hg3, hB3⟩ := stabcheck_pres st env .defl s2 s3 a3 stt3 hs
          refine ⟨hg3.trans hg2, ?_⟩
          intro a ha
          simp only [List.mem_append] at ha
          rcases ha with (h | h) | h
          · exact hB1 a h
          · exact hB2 a h
          · exact hB3 a h

/-! Windowing correctness. -/

theorem scanStartIndex_le (ts : List ℚ) (start : ℚ) :
    ∀ n, scanStartIndex ts start n ≤ n := by
  intro n
  induction n with
  | zero => exact le_refl 0
  | succ n ih =>
    rw [scanStartIndex]
    split
    · exact le_refl _
    · exact le_trans ih (Nat.le_succ n)

/-- Every index at or beyond the scan result (and inside the scanned
range) carries a timestamp inside the window. -/
theorem scanStartIndex_not_lt (ts : List ℚ) (start : ℚ) :
    ∀ n j, scanStartIndex ts start n ≤ j → j < n → ¬ ts.getD j 0 < start := by
  intro n
  induction n with
  | zero =>
    intro j _ h
    exact absurd h (Nat.not_lt_zero j)
  | succ n ih =>
    intro j h1 h2
    rw [scanStartIndex] at h1
    by_cases hc : ts.getD n 0 < start
    · rw [if_pos hc] at h1
      omega
    · rw [if_neg hc] at h1
      rcases Nat.lt_succ_iff_lt_or_eq.mp h2 with h | rfl
      · exact ih j h1 h
      · exact hc

/-- A nonzero scan result points just past a timestamp outside the
window. -/
theorem scanStartIndex_boundary (ts : List ℚ) (start : ℚ) :
    ∀ n, scanStartIndex ts start n ≠ 0 →
      ts.getD (scanStartIndex ts start n - 1) 0 < start := by
  intro n
  induction n with
  | zero =>
    intro h
    exact absurd rfl h
  | succ n ih =>
    intro hne
    rw [scanStartIndex] at hne ⊢
    by_cases hc : ts.getD n 0 < start
    · rw [if_pos hc]
      simpa using hc
    · rw [if_neg hc] at hne ⊢
      exact ih hne

/-- Windowing correctness: on a channel whose timestamps are
non-decreasing, get_windowed_data returns exactly the values of the
samples with timestamp at or after start_time, in order. -/
theorem get_windowed_data_eq_filter (ts dat : List ℚ) (start : ℚ)
    (hlen : ts.length = dat.length) (hsorted : ts.Sorted (· ≤ ·)) :
    get_windowed_data ts dat start =
      ((ts.zip dat).filter fun p => decide (start ≤ p.1)).map Prod.snd := by
  have hkle : scanStartIndex ts start ts.length ≤ ts.length :=
    scanStartIndex_le ts start ts.length
  set k := scanStartIndex ts start ts.length with hk
  have hzlen : (ts.zip dat).length = ts.length := by
    rw [List.length_zip, hlen, min_self]
  have hbefore : ∀ j, j < k → ts.getD j 0 < start := by
    intro j hj
    have hkne : k ≠ 0 := by omega
    have hb := scanStartIndex_boundary ts start ts.length hkne
    have hj1 : j < ts.length := lt_of_lt_of_le hj hkle
    have hk1 : k - 1 < ts.length := by omega
    have hle2 : ts.getD j 0 ≤ ts.getD (k - 1) 0 := by
      rw [List.getD_eq_getElem ts 0 hj1, List.getD_eq_getElem ts 0 hk1]
      have h3 := List.Sorted.rel_get_of_le hsorted
        (a := ⟨j, hj1⟩) (b := ⟨k - 1, hk1⟩) (by simp [Fin.le_def]; omega)
      simpa [List.get_eq_getElem] using h3
    exact lt_of_le_of_lt hle2 hb
  have hafter : ∀ j, k ≤ j → j < ts.length → start ≤ ts.getD j 0 :=
    fun j h1 h2 => not_lt.mp (scanStartIndex_not_lt ts start ts.length j h1 h2)
  have hsplit : ts.zip dat = (ts.zip dat).take k ++ (ts.zip dat).drop k :=
    (List.take_append_drop k _).symm
  rw [get_windowed_data, ← hk]
  conv_rhs => rw [hsplit]
  rw [List.filter_append]
  have hfilter1 :
      ((ts.zip dat).take k).filter (fun p => decide (start ≤ p.1)) = [] := by
    rw [List.filter_eq_nil_iff]
    intro a ha
    obtain ⟨i, hi, rfl⟩ := List.mem_iff_getElem.mp ha
    have hik : i < k := by
      have := hi
      rw [List.length_take] at this
      omega
    have hil : i < (ts.zip dat).length := by omega
    rw [List.getElem_take]
    have hits : i < ts.length := by omega
    have hts : ts.getD i 0 < start := hbefore i hik
    rw [List.getD_eq_getElem ts 0 hits] at hts
    simp [List.getElem_zip, not_le.mpr hts]
  have hfilter2 :
      ((ts.zip dat).drop k).filter (fun p => decide (start ≤ p.1)) =
        (ts.zip dat).drop k := by
    rw [List.filter_eq_self]
    intro a ha
    obtain ⟨i, hi, rfl⟩ := List.mem_iff_getElem.mp ha
    have hdl : i < (ts.zip dat).length - k := by
      have := hi
      rw [List.length_drop] at this
      omega
    have hki : k + i < ts.length := by omega
    rw [List.getElem_drop]
    have hts : start ≤ ts.getD (k + i) 0 :=
      hafter (k + i) (Nat.le_add_right k i) hki
    rw [List.getD_eq_getElem ts 0 hki] at hts
    simp [List.getElem_zip, hts]
  rw [hfilter1, hfilter2, List.nil_append, List.map_drop,
    List.map_snd_zip ts dat (le_of_eq hlen.symm)]

/-! Reachability and operator operations. -/

/-- A sequence of periodic evaluation ticks (update_plots_and_signals
timer callbacks), each against its own snapshot of latest values and
buffers, collecting all alarms in order. -/
def runTicks (st : Settings) (fuel : ℕ) :
    List Env → MState → Except EvalErr (MState × List Alarm)
  | [], s => .ok (s, [])
  | e :: rest, s =>
    match check_signal_conditions st e fuel s with
    | .error err => .error err
    | .ok (s1, a1) =>
      match runTicks st fuel rest s1 with
      | .error err => .error err
      | .ok (s2, a2) => .ok (s2, a1 ++ a2)

/-- Signal states reachable from startup through any sequence of
evaluation ticks, operator resets and accepted settings dialogs, each step
against arbitrary live data and settings. -/
inductive Reachable : MState → Prop where
  | init : Reachable initialState
  | eval (st : Settings) (env : Env) (fuel : ℕ) (s s' : MState) (A : List Alarm) :
      Reachable s → check_signal_conditions st env fuel s = .ok (s', A) →
      Reachable s'
  | resetKub (st : Settings) (env : Env) (fuel : ℕ) (s s' : MState) (A : List Alarm) :
      Reachable s → reset_t_kub_signal st env fuel s = .ok (s', A) → Reachable s'
  | resetDefl (st : Settings) (env : Env) (fuel : ℕ) (s s' : MState) (A : List Alarm) :
      Reachable s → reset_t_deflegmator_signal st env fuel s = .ok (s', A) →
      Reachable s'
  | resetStab (st : Settings) (env : Env) (fuel : ℕ) (s s' : MState) (A : List Alarm) :
      Reachable s → reset_stability_signal st env fuel s = .ok (s', A) → Reachable s'
  | settings (oldS newS : Settings) (env : Env) (fuel : ℕ) (s s' : MState)
      (A : List Alarm) :
      Reachable s → open_settings_dialog oldS newS env fuel s = .ok (s', A) →
      Reachable s'

theorem reset_t_kub_signal_SigInv (st : Settings) (env : Env) (fuel : ℕ)
    (s s' : MState) (A : List Alarm) (h : SigInv s)
    (hres : reset_t_kub_signal st env fuel s = .ok (s', A)) : SigInv s' :=
  check_signal_conditions_SigInv st env fuel _ s' A
    (sigInv_set s .kub ⟨true, false⟩ h (fun hh => nomatch hh)) hres

theorem reset_t_deflegmator_signal_SigInv (st : Settings) (env : Env) (fuel : ℕ)
    (s s' : MState) (A : List Alarm) (h : SigInv s)
    (hres : reset_t_deflegmator_signal st env fuel s = .ok (s', A)) : SigInv s' :=
  check_signal_conditions_SigInv st env fuel _ s' A
    (sigInv_set s .defl ⟨true, false⟩ h (fun hh => nomatch hh)) hres

theorem reset_stability_signal_SigInv (st : Settings) (env : Env) (fuel : ℕ)
    (s s' : MState) (A : List Alarm) (h : SigInv s)
    (hres : reset_stability_signal st env fuel s = .ok (s', A)) : SigInv s' :=
  check_signal_conditions_SigInv st env fuel _ s' A
    (sigInv_setStab s ⟨true, false⟩ h (fun hh => nomatch hh)) hres

theorem open_settings_dialog_SigInv (oldS newS : Settings) (env : Env) (fuel : ℕ)
    (s s' : MState) (A : List Alarm) (h : SigInv s)
    (hres : open_settings_dialog oldS newS env fuel s = .ok (s', A)) : SigInv s' := by
  unfold open_settings_dialog at hres
  cases hr1 : (if oldS.t_signal_kub ≠ newS.t_signal_kub then
      reset_t_kub_signal newS env fuel s else .ok (s, [])) with
  | error e => simp [hr1] at hres
  | ok p1 =>
    obtain ⟨s1, a1⟩ := p1
    simp only [hr1] at hres
    have h1 : SigInv s1 := by
      by_cases hc : oldS.t_signal_kub ≠ newS.t_signal_kub
      · rw [if_pos hc] at hr1
        exact reset_t_kub_signal_SigInv newS env fuel s s1 a1 h hr1
      · rw [if_neg hc] at hr1
        simp only [Except.ok.injEq, Prod.mk.injEq] at hr1
        obtain ⟨rfl, rfl⟩ := hr1
        exact h
    cases hr2 : (if oldS.t_signal_deflegmator ≠ newS.t_signal_deflegmator then
        reset_t_deflegmator_signal newS env fuel s1 else .ok (s1, [])) with
    | error e => simp [hr2] at hres
    | ok p2 =>
      obtain ⟨s2, a2⟩ := p2
      simp only [hr2] at hres
      have h2 : SigInv s2 := by
        by_cases hc : oldS.t_signal_deflegmator ≠ newS.t_signal_deflegmator
        · rw [if_pos hc] at hr2
          exact reset_t_deflegmator_signal_SigInv newS env fuel s1 s2 a2 h1 hr2
        · rw [if_neg hc] at hr2
          simp only [Except.ok.injEq, Prod.mk.injEq] at hr2
          obtain ⟨rfl, rfl⟩ := hr2
          exact h1
      cases hr3 : (if oldS.delta_t ≠ newS.delta_t ∨
          oldS.period_seconds ≠ newS.period_seconds then
          reset_stability_signal newS env fuel s2 else .ok (s2, [])) with
      | error e => simp [hr3] at hres
      | ok p3 =>
        obtain ⟨s3, a3⟩ := p3
        simp only [hr3] at hres
        have h3 : SigInv s3 := by
          by_cases hc : oldS.delta_t ≠ newS.delta_t ∨
              oldS.period_seconds ≠ newS.period_seconds
          · rw [if_pos hc] at hr3
            exact reset_stability_signal_SigInv newS env fuel s2 s3 a3 h2 hr3
          · rw [if_neg hc] at hr3
            simp only [Except.ok.injEq, Prod.mk.injEq] at hr3
            obtain ⟨rfl, rfl⟩ := hr3
            exact h2
        cases hr4 : check_signal_conditions newS env fuel s3 with
        | error e => simp [hr4] at hres
        | ok p4 =>
          obtain ⟨s4, a4⟩ := p4
          simp only [hr4] at hres
          simp only [Except.ok.injEq, Prod.mk.injEq] at hres
          obtain ⟨rfl, rfl⟩ := hres
          exact check_signal_conditions_SigInv newS env fuel s3 s4 a4 h3 hr4

/-! Concrete inputs used by witnesses and counterexamples. -/

/-- Empty environment: no data received yet. -/
def env0 : Env := ⟨none, none, 0, [], [], [], []⟩

/-- Cube threshold 70 with the latest cube value exactly at it. -/
def stBoundary : Settings := ⟨70, 200, 1, 60⟩

def envAt70 : Env := ⟨some (.num 70), none, 0, [], [], [], []⟩

def envBelow70 : Env := ⟨some (.num (699 / 10)), none, 0, [], [], [], []⟩

/-- Latest cube value 65, below the 70-degree gate, with a perfectly
stable window that would otherwise trigger. -/
def envGate : Env := ⟨some (.num 65), none, 100, [95, 99], [65, 65], [95, 99], [55, 55]⟩

/-! Claim theorems. -/

/-- C2: for an armed threshold signal (cube or condenser) whose latest
value is present and numeric, the check transitions to TRIGGERED and
notifies AlarmSink exactly when value is at or above the threshold
(inclusive comparison); a value strictly below leaves the signal state
untouched with no alarm. -/
theorem C2_threshold_inclusive
    (recur : MState → Except EvalErr (MState × List Alarm))
    (sid : SigId) (st : Settings) (env : Env) (s : MState) (v : ℚ)
    (hact : (s.get sid).monitoring_active = true)
    (hparse : (topicVal sid env >>= pyFloat?) = some v) :
    (thrOf sid st ≤ v →
      _check_temperature_signal recur sid st env s =
        .ok (s.set sid ⟨false, true⟩, [.threshold sid v (thrOf sid st)],
          .triggeredNow v (thrOf sid st))) ∧
    (v < thrOf sid st →
      _check_temperature_signal recur sid st env s =
        .ok (s, [], .monitoring v (thrOf sid st))) := by
  obtain ⟨rv, hrv, hpv⟩ : ∃ rv, topicVal sid env = some rv ∧ pyFloat? rv = some v := by
    cases htv : topicVal sid env with
    | none => rw [htv] at hparse; exact absurd hparse (by simp)
    | some rv => rw [htv] at hparse; exact ⟨rv, rfl, by simpa using hparse⟩
  constructor
  · intro hle
    unfold _check_temperature_signal
    simp only [hact, hrv, hpv, if_true]
    rw [if_pos hle]
  · intro hlt
    unfold _check_temperature_signal
    simp only [hact, hrv, hpv, if_true]
    rw [if_neg (not_le.mpr hlt)]

/-- C2 witness: with threshold 70, a latest cube value of exactly 70
triggers with an alarm, while 69.9 stays armed and silent. -/
theorem C2_threshold_inclusive_witness :
    (_check_temperature_signal (fun t => .ok (t, [])) .kub stBoundary envAt70 initialState =
      .ok (initialState.set .kub ⟨false, true⟩, [.threshold .kub 70 70],
        .triggeredNow 70 70)) ∧
    (_check_temperature_signal (fun t => .ok (t, [])) .kub stBoundary envBelow70 initialState =
      .ok (initialState, [], .monitoring (699 / 10) 70)) := by
  constructor
  · exact (C2_threshold_inclusive (fun t => .ok (t, [])) .kub stBoundary envAt70
      initialState 70 rfl rfl).1 (le_refl _)
  · exact (C2_threshold_inclusive (fun t => .ok (t, [])) .kub stBoundary envBelow70
      initialState (699 / 10) rfl rfl).2 (by norm_num [thrOf, stBoundary])

/-- C5: when the armed stability signal finds the latest cube value at or
below the 70-degree gate, it reports the gate status and returns with the
state unchanged and no alarm; the result does not depend on the windowed
buffers at all (the environment is arbitrary here apart from the latest
cube value), so no window computation can influence it. -/
theorem C5_stability_gate (st : Settings) (env : Env) (s : MState) (tk : ℚ)
    (hact : s.stab.monitoring_active = true)
    (hparse : (env.latest_k >>= pyFloat?) = some tk)
    (hgate : tk ≤ TERM_K_70) :
    check_temperature_stability_signal st env s = (s, [], .core (.belowGate tk)) := by
  have hcore : stability_core st env = .belowGate tk := by
    unfold stability_core
    rw [hparse]
    simp [hgate]
  simp [check_temperature_stability_signal, hact, hcore]

/-- C5 witness: latest cube value 65 with a window that would trigger
(variation 0) still only reports the gate status. -/
theorem C5_stability_gate_witness :
    initialState.stab.monitoring_active = true ∧
    (envGate.latest_k >>= pyFloat?) = some 65 ∧
    (65 : ℚ) ≤ TERM_K_70 ∧
    check_temperature_stability_signal defaultSettings envGate initialState =
      (initialState, [], .core (.belowGate 65)) :=
  ⟨rfl, rfl, by norm_num [TERM_K_70],
    C5_stability_gate defaultSettings envGate initialState 65 rfl rfl
      (by norm_num [TERM_K_70])⟩

/-- C6: on a channel buffer with non-decreasing timestamps and parallel
value entries, the windowing helper returns exactly the values of the
samples with timestamp at or after start_time, in original append order,
and that result is a suffix of the appended values. -/
theorem C6_windowing (ts dat : List ℚ) (start : ℚ)
    (hlen : ts.length = dat.length) (hsorted : ts.Sorted (· ≤ ·)) :
    get_windowed_data ts dat start =
      ((ts.zip dat).filter fun p => decide (start ≤ p.1)).map Prod.snd ∧
    get_windowed_data ts dat start <:+ dat :=
  ⟨get_windowed_data_eq_filter ts dat start hlen hsorted,
    List.drop_suffix _ dat⟩

/-- C6 witness: appends spanning the window boundary. -/
theorem C6_windowing_witness :
    ([1, 2, 3] : List ℚ).length = ([10, 20, 30] : List ℚ).length ∧
    ([1, 2, 3] : List ℚ).Sorted (· ≤ ·) ∧
    (get_windowed_data [1, 2, 3] [10, 20, 30] 2 =
      ((([1, 2, 3] : List ℚ).zip ([10, 20, 30] : List ℚ)).filter
        fun p => decide ((2 : ℚ) ≤ p.1)).map Prod.snd ∧
     get_windowed_data [1, 2, 3] [10, 20, 30] 2 <:+ ([10, 20, 30] : List ℚ)) :=
  ⟨rfl, by decide, C6_windowing [1, 2, 3] [10, 20, 30] 2 rfl (by decide)⟩

/-- C8: in every state reachable by any sequence of evaluation ticks,
operator resets and settings updates, each of the three signals satisfies
the one-shot invariant: triggered implies monitoring is off. -/
theorem C8_one_shot_invariant : ∀ s, Reachable s → SigInv s := by
  intro s h
  induction h with
  | init =>
    refine ⟨?_, ?_, ?_⟩ <;> (intro hh; exact nomatch hh)
  | eval st env fuel s s' A _ hres ih =>
    exact check_signal_conditions_SigInv st env fuel s s' A ih hres
  | resetKub st env fuel s s' A _ hres ih =>
    exact reset_t_kub_signal_SigInv st env fuel s s' A ih hres
  | resetDefl st env fuel s s' A _ hres ih =>
    exact reset_t_deflegmator_signal_SigInv st env fuel s s' A ih hres
  | resetStab st env fuel s s' A _ hres ih =>
    exact reset_stability_signal_SigInv st env fuel s s' A ih hres
  | settings oldS newS env fuel s s' A _ hres ih =>
    exact open_settings_dialog_SigInv oldS newS env fuel s s' A ih hres

/-- C8 witness: the invariant at the initial state. -/
theorem C8_one_shot_invariant_witness : SigInv initialState :=
  C8_one_shot_invariant initialState Reachable.init

/-- Latest cube value 50, strictly below the default cube threshold 60
and below the stability gate. -/
def envC3 : Env := ⟨some (.num 50), none, 0, [], [], [], []⟩

/-- Cube signal triggered, others armed. -/
def sC3 : MState := ⟨⟨false, true⟩, ⟨true, false⟩, ⟨true, false⟩⟩

/-- C3: a threshold signal in the TRIGGERED state silently re-arms on the
next evaluation exactly when its latest value is present and parses
strictly below the threshold (ending armed and untriggered with no alarm
notified for it); when the latest value is absent or at or above the
threshold, the triggered state persists. -/
theorem C3_auto_clear (sid : SigId) (st : Settings) (env : Env) (fuel : ℕ)
    (s : MState) (hT : s.get sid = ⟨false, true⟩) :
    (∀ v, (topicVal sid env >>= pyFloat?) = some v → v < thrOf sid st →
      ∀ s' A, check_signal_conditions st env fuel s = .ok (s', A) →
        s'.get sid = ⟨true, false⟩ ∧ ∀ a ∈ A, ¬ thrAlarm sid a) ∧
    (((topicVal sid env >>= pyFloat?) = none ∨
      (∃ v, (topicVal sid env >>= pyFloat?) = some v ∧ thrOf sid st ≤ v)) →
      ∀ s' A, check_signal_conditions st env fuel s = .ok (s', A) →
        s'.get sid = ⟨false, true⟩) := by
  constructor
  · intro v hparse hlt s' A hres
    exact csc_auto_clears st env sid v hparse hlt fuel s s' A (Or.inl hT) hres
  · intro hcase s' A hres
    have hhigh : ∀ v, (topicVal sid env >>= pyFloat?) = some v → thrOf sid st ≤ v := by
      intro v hv
      rcases hcase with hnone | ⟨w, hw, hge⟩
      · rw [hnone] at hv
        exact absurd hv (by simp)
      · rw [hw] at hv
        injection hv with h
        exact h ▸ hge
    exact (csc_inactive_stable st env sid ⟨false, true⟩ rfl hhigh fuel s s' A hT hres).1

/-- C3 witness: a triggered cube signal with latest value 50 against the
default threshold 60 re-arms silently on one evaluation. -/
theorem C3_auto_clear_witness :
    sC3.get .kub = ⟨false, true⟩ ∧
    (topicVal .kub envC3 >>= pyFloat?) = some 50 ∧
    (50 : ℚ) < thrOf .kub defaultSettings ∧
    (initialState.get .kub = ⟨true, false⟩ ∧
      ∀ a ∈ ([] : List Alarm), ¬ thrAlarm .kub a) := by
  refine ⟨rfl, rfl, by norm_num [thrOf, defaultSettings], ?_⟩
  exact (C3_auto_clear .kub defaultSettings envC3 4 sC3 rfl).1 50 rfl
    (by norm_num [thrOf, defaultSettings]) initialState [] rfl

theorem runTicks_threshold_quiet (st : Settings) (fuel : ℕ) (sid : SigId) :
    ∀ envs s, s.get sid = ⟨false, true⟩ →
      (∀ env ∈ envs, ∀ v, (topicVal sid env >>= pyFloat?) = some v → thrOf sid st ≤ v) →
      ∀ s' A, runTicks st fuel envs s = .ok (s', A) →
        s'.get sid = ⟨false, true⟩ ∧ ∀ a ∈ A, ¬ thrAlarm sid a := by
  intro envs
  induction envs with
  | nil =>
    intro s hT _ s' A hres
    rw [runTicks] at hres
    simp only [Except.ok.injEq, Prod.mk.injEq] at hres
    obtain ⟨rfl, rfl⟩ := hres
    exact ⟨hT, by simp⟩
  | cons e rest ih =>
    intro s hT hvals s' A hres
    rw [runTicks] at hres
    cases hc : check_signal_conditions st e fuel s with
    | error err => simp [hc] at hres
    | ok p1 =>
      obtain ⟨s1, a1⟩ := p1
      simp only [hc] at hres
      obtain ⟨h1, hB1⟩ :=
        csc_inactive_stable st e sid ⟨false, true⟩ rfl (hvals e (List.mem_cons_self e rest))
          fuel s s1 a1 hT hc
      cases hr : runTicks st fuel rest s1 with
      | error err => simp [hr] at hres
      | ok p2 =>
        obtain ⟨s2, a2⟩ := p2
        simp only [hr] at hres
        simp only [Except.ok.injEq, Prod.mk.injEq] at hres
        obtain ⟨rfl, rfl⟩ := hres
        obtain ⟨h2, hB2⟩ :=
          ih s1 h1 (fun env he => hvals env (List.mem_cons_of_mem e he)) s2 a2 hr
        exact ⟨h2, fun a ha => (List.mem_append.mp ha).elim (hB1 a) (hB2 a)⟩

theorem runTicks_stab_quiet (st : Settings) (fuel : ℕ) :
    ∀ envs s, s.stab = ⟨false, true⟩ →
      (∀ env ∈ envs, ∀ sid v, (topicVal sid env >>= pyFloat?) = some v → thrOf sid st ≤ v) →
      ∀ s' A, runTicks st fuel envs s = .ok (s', A) →
        s'.stab = ⟨false, true⟩ ∧ ∀ a ∈ A, ¬ stabAlarm a := by
  intro envs
  induction envs with
  | nil =>
    intro s hT _ s' A hres
    rw [runTicks] at hres
    simp only [Except.ok.injEq, Prod.mk.injEq] at hres
    obtain ⟨rfl, rfl⟩ := hres
    exact ⟨hT, by simp⟩
  | cons e rest ih =>
    intro s hT hvals s' A hres
    rw [runTicks] at hres
    cases hc : check_signal_conditions st e fuel s with
    | error err => simp [hc] at hres
    | ok p1 =>
      obtain ⟨s1, a1⟩ := p1
      simp only [hc] at hres
      obtain ⟨h1, hB1⟩ :=
        csc_stab_triggered_stable st e (hvals e (List.mem_cons_self e rest))
          fuel s s1 a1 hT hc
      cases hr : runTicks st fuel rest s1 with
      | error err => simp [hr] at hres
      | ok p2 =>
        obtain ⟨s2, a2⟩ := p2
        simp only [hr] at hres
        simp only [Except.ok.injEq, Prod.mk.injEq] at hres
        obtain ⟨rfl, rfl⟩ := hres
        obtain ⟨h2, hB2⟩ :=
          ih s1 h1 (fun env he => hvals env (List.mem_cons_of_mem e he)) s2 a2 hr
        exact ⟨h2, fun a ha => (List.mem_append.mp ha).elim (hB1 a) (hB2 a)⟩

/-- C4: once a signal has triggered, any sequence of evaluation ticks in
which no latest value relevant to it ever parses below the corresponding
threshold (the same-or-higher-value regime of the claim) notifies no
further alarm for that signal and leaves it triggered: AlarmSink is called
at most once per trigger.  For a threshold signal only its own channel
matters; for the stability signal the condition on both threshold
channels rules out the silent auto-reset paths that would re-arm it. -/
theorem C4_one_shot (st : Settings) (fuel : ℕ) (envs : List Env) :
    (∀ sid s, s.get sid = ⟨false, true⟩ →
      (∀ env ∈ envs, ∀ v, (topicVal sid env >>= pyFloat?) = some v → thrOf sid st ≤ v) →
      ∀ s' A, runTicks st fuel envs s = .ok (s', A) →
        s'.get sid = ⟨false, true⟩ ∧ ∀ a ∈ A, ¬ thrAlarm sid a) ∧
    (∀ s, s.stab = ⟨false, true⟩ →
      (∀ env ∈ envs, ∀ sid v, (topicVal sid env >>= pyFloat?) = some v → thrOf sid st ≤ v) →
      ∀ s' A, runTicks st fuel envs s = .ok (s', A) →
        s'.stab = ⟨false, true⟩ ∧ ∀ a ∈ A, ¬ stabAlarm a) :=
  ⟨fun sid s hT hvals => runTicks_threshold_quiet st fuel sid envs s hT hvals,
   fun s hT hvals => runTicks_stab_quiet st fuel envs s hT hvals⟩

/-- Latest cube value 80, above the default cube threshold 60. -/
def envC4 : Env := ⟨some (.num 80), none, 0, [], [], [], []⟩

/-- Cube signal triggered, others armed. -/
def sC4 : MState := ⟨⟨false, true⟩, ⟨true, false⟩, ⟨true, false⟩⟩

/-- Stability signal triggered, threshold signals armed. -/
def sC4s : MState := ⟨⟨true, false⟩, ⟨true, false⟩, ⟨false, true⟩⟩

theorem C4_one_shot_values :
    ∀ env ∈ [envC4, envC4], ∀ sid v,
      (topicVal sid env >>= pyFloat?) = some v → thrOf sid defaultSettings ≤ v := by
  intro env he sid v hv
  simp only [List.mem_cons, List.not_mem_nil, or_false] at he
  rcases he with rfl | rfl <;>
    (cases sid
     · injection hv with h
       rw [← h]
       norm_num [thrOf, defaultSettings]
     · exact absurd hv (by simp [topicVal, envC4, pyFloat?]))

/-- C4 witness: two ticks at cube value 80 leave a triggered cube signal
silent and keep a triggered stability signal silent (the cube signal may
fire its own single alarm during those ticks, which is not a stability
alarm). -/
theorem C4_one_shot_witness :
    (sC4.get .kub = ⟨false, true⟩ ∧
      ∀ a ∈ ([] : List Alarm), ¬ thrAlarm .kub a) ∧
    (sC4s.stab = ⟨false, true⟩ ∧
      ∀ a ∈ [Alarm.threshold .kub 80 60], ¬ stabAlarm a) := by
  constructor
  · exact (C4_one_shot defaultSettings 4 [envC4, envC4]).1 .kub sC4 rfl
      (fun env he v hv => C4_one_shot_values env he .kub v hv) sC4 [] rfl
  · exact (C4_one_shot defaultSettings 4 [envC4, envC4]).2 sC4s rfl
      C4_one_shot_values ⟨⟨false, true⟩, ⟨true, false⟩, ⟨false, true⟩⟩
      [Alarm.threshold .kub 80 60] rfl

/-- Environment whose latest cube value is a non-numeric string, as
stored by handle_message for any payload. -/
def envNonNum : Env := ⟨some .nonNum, none, 0, [], [], [], []⟩

/-- C9 counterexample: after ingesting a non-numeric payload on term_k
(which handle_message still stores in the latest-value table), the very
next evaluation raises ValueError out of the armed cube-threshold check
(float() at qt_client.py line 1165 is not guarded), so evaluation does
not complete for every possible latest-value table content. -/
theorem C9_counterexample :
    (handle_message "term_k" .nonNum 0 env0).latest_k = some .nonNum ∧
    check_signal_conditions defaultSettings (handle_message "term_k" .nonNum 0 env0) 4
      initialState = .error .valueError :=
  ⟨rfl, rfl⟩

/-- C9 (amended): evaluation completes without raising for every
latest-value table whose present entries are numeric (any fuel of the form
fuel + 3 suffices, and fuel is an artifact of the embedding); moreover the
stability check on its own degrades even a non-numeric cube entry to a
waiting status without raising.  A present non-numeric entry on a
threshold channel, however, makes that threshold check raise (see the
counterexample), so the original unconditional claim fails. -/
theorem C9_no_crash :
    (∀ (st : Settings) (env : Env) (fuel : ℕ) (s : MState), goodTable env →
      ∃ s' A, check_signal_conditions st env (fuel + 3) s = .ok (s', A)) ∧
    (∀ (st : Settings) (env : Env) (s : MState), env.latest_k = some .nonNum →
      s.stab.monitoring_active = true →
      check_temperature_stability_signal st env s = (s, [], .core .waitingData)) := by
  constructor
  · intro st env fuel s hgood
    obtain ⟨⟨s', A⟩, h⟩ := check_signal_conditions_total_three st env hgood fuel s
    exact ⟨s', A, h⟩
  · intro st env s hk hact
    have hcore : stability_core st env = .waitingData := by
      unfold stability_core
      rw [hk]
      rfl
    simp [check_temperature_stability_signal, hact, hcore]

/-- C9 witness: the no-crash guarantee at an empty table, and the guarded
stability check on a non-numeric cube entry. -/
theorem C9_no_crash_witness :
    goodTable env0 ∧
    (∃ s' A, check_signal_conditions defaultSettings env0 (0 + 3) initialState =
      .ok (s', A)) ∧
    check_temperature_stability_signal defaultSettings envNonNum initialState =
      (initialState, [], .core .waitingData) := by
  have hg : goodTable env0 := by
    intro sid rv h
    cases sid <;> exact absurd h (by simp [topicVal, env0])
  exact ⟨hg, C9_no_crash.1 defaultSettings env0 0 initialState hg,
    C9_no_crash.2 defaultSettings envNonNum initialState rfl rfl⟩

/-! Settings updates. -/

theorem tempcheck_nodata (st : Settings) (env : Env)
    (recur : MState → Except EvalErr (MState × List Alarm)) (sid : SigId)
    (h : topicVal sid env = none) :
    ∀ t, ∃ stt, _check_temperature_signal recur sid st env t = .ok (t, [], stt) := by
  intro t
  cases hact : (t.get sid).monitoring_active
  · exact ⟨.inactive, by simp [_check_temperature_signal, hact, h]⟩
  · exact ⟨.waitingData, by simp [_check_temperature_signal, hact, h]⟩

theorem stabcheck_nodata (st : Settings) (env : Env) (hk : env.latest_k = none) :
    ∀ t, ∃ stt, check_temperature_stability_signal st env t = (t, [], stt) := by
  intro t
  cases hact : t.stab.monitoring_active
  · exact ⟨.disabled, by simp [check_temperature_stability_signal, hact]⟩
  · have hcore : stability_core st env = .waitingData := by
      unfold stability_core
      rw [hk]
      rfl
    exact ⟨.core .waitingData, by simp [check_temperature_stability_signal, hact, hcore]⟩

/-- With no latest values present, one evaluation pass is a no-op. -/
theorem csc_nodata (st : Settings) (env : Env) (fuel : ℕ)
    (hk : env.latest_k = none) (hd : env.latest_d = none) :
    ∀ s, check_signal_conditions st env (fuel + 1) s = .ok (s, []) := by
  intro s
  have htvk : topicVal .kub env = none := hk
  have htvd : topicVal .defl env = none := hd
  obtain ⟨stt1, h1⟩ :=
    tempcheck_nodata st env (check_signal_conditions st env fuel) .kub htvk s
  obtain ⟨stt2, h2⟩ :=
    tempcheck_nodata st env (check_signal_conditions st env fuel) .defl htvd s
  obtain ⟨stt3, h3⟩ := stabcheck_nodata st env hk s
  rw [check_signal_conditions]
  simp [h1, h2, h3]

/-- Latest cube value 95, empty buffers. -/
def envC7 : Env := ⟨some (.num 95), none, 0, [], [], [], []⟩

/-- Old settings: cube 90, condenser 90, delta 1, period 60. -/
def oldC7 : Settings := ⟨90, 90, 1, 60⟩

/-- New settings: only delta_t changed. -/
def newC7 : Settings := ⟨90, 90, 2, 60⟩

/-- C7 counterexample: with the latest cube value at 95 against an
unchanged cube threshold of 90, changing only delta_t makes the settings
update trigger the cube signal (state change and alarm), because every
dependency-based reset is followed by an unconditional re-evaluation
(qt_client.py line 815); so a signal whose settings did not change does
not, in general, keep its state. -/
theorem C7_counterexample :
    oldC7.t_signal_kub = newC7.t_signal_kub ∧
    open_settings_dialog oldC7 newC7 envC7 4 initialState =
      .ok (⟨⟨false, true⟩, ⟨true, false⟩, ⟨true, false⟩⟩, [.threshold .kub 95 90]) ∧
    (⟨⟨false, true⟩, ⟨true, false⟩, ⟨true, false⟩⟩ : MState).kub ≠ initialState.kub :=
  ⟨rfl, rfl, by decide⟩
/-- C7 (amended): a settings update resets exactly the signals whose
settings changed (delta_t or period_seconds for the stability signal,
t_signal_kub for the cube signal, t_signal_deflegmator for the condenser
signal), each reset landing on armed and untriggered with no stale
trigger; it then re-evaluates all signals once, which can itself change
any signal per the normal evaluation semantics (see the counterexample).
When no latest values are present, that re-evaluation is a no-op, and
signals whose settings did not change keep their state exactly. -/
theorem C7_settings_dependency (oldS newS : Settings) (env : Env) (fuel : ℕ)
    (s s' : MState) (A : List Alarm)
    (hk : env.latest_k = none) (hd : env.latest_d = none)
    (hres : open_settings_dialog oldS newS env (fuel + 1) s = .ok (s', A)) :
    s'.kub = (if oldS.t_signal_kub ≠ newS.t_signal_kub then ⟨true, false⟩ else s.kub) ∧
    s'.defl =
      (if oldS.t_signal_deflegmator ≠ newS.t_signal_deflegmator then ⟨true, false⟩
       else s.defl) ∧
    s'.stab =
      (if oldS.delta_t ≠ newS.delta_t ∨ oldS.period_seconds ≠ newS.period_seconds then
        ⟨true, false⟩
       else s.stab) ∧
    A = [] := by
  have hcsc := csc_nodata newS env fuel hk hd
  unfold open_settings_dialog at hres
  have e1 : (if oldS.t_signal_kub ≠ newS.t_signal_kub then
      reset_t_kub_signal newS env (fuel + 1) s else .ok (s, [])) =
      .ok ((if oldS.t_signal_kub ≠ newS.t_signal_kub then
        s.set .kub ⟨true, false⟩ else s), []) := by
    by_cases hc : oldS.t_signal_kub ≠ newS.t_signal_kub
    · rw [if_pos hc, if_pos hc]
      exact hcsc _
    · rw [if_neg hc, if_neg hc]
  simp only [e1] at hres
  have e2 : (if oldS.t_signal_deflegmator ≠ newS.t_signal_deflegmator then
      reset_t_deflegmator_signal newS env (fuel + 1)
        (if oldS.t_signal_kub ≠ newS.t_signal_kub then s.set .kub ⟨true, false⟩ else s)
      else .ok ((if oldS.t_signal_kub ≠ newS.t_signal_kub then
        s.set .kub ⟨true, false⟩ else s), [])) =
      .ok ((if oldS.t_signal_deflegmator ≠ newS.t_signal_deflegmator then
        (if oldS.t_signal_kub ≠ newS.t_signal_kub then
          s.set .kub ⟨true, false⟩ else s).set .defl ⟨true, false⟩
       else (if oldS.t_signal_kub ≠ newS.t_signal_kub then
          s.set .kub ⟨true, false⟩ else s)), []) := by
    by_cases hc : oldS.t_signal_deflegmator ≠ newS.t_signal_deflegmator
    · rw [if_pos hc, if_pos hc]
      exact hcsc _
    · rw [if_neg hc, if_neg hc]
  simp only [e2] at hres
  set s2v := (if oldS.t_signal_deflegmator ≠ newS.t_signal_deflegmator then
      (if oldS.t_signal_kub ≠ newS.t_signal_kub then
        s.set .kub ⟨true, false⟩ else s).set .defl ⟨true, false⟩
     else (if oldS.t_signal_kub ≠ newS.t_signal_kub then
        s.set .kub ⟨true, false⟩ else s)) with hs2v
  have e3 : (if oldS.delta_t ≠ newS.delta_t ∨ oldS.period_seconds ≠ newS.period_seconds then
      reset_stability_signal newS env (fuel + 1) s2v else .ok (s2v, [])) =
      .ok ((if oldS.delta_t ≠ newS.delta_t ∨ oldS.period_seconds ≠ newS.period_seconds then
        s2v.setStab ⟨true, false⟩ else s2v), []) := by
    by_cases hc : oldS.delta_t ≠ newS.delta_t ∨ oldS.period_seconds ≠ newS.period_seconds
    · rw [if_pos hc, if_pos hc]
      exact hcsc _
    · rw [if_neg hc, if_neg hc]
  simp only [e3] at hres
  rw [hcsc _] at hres
  simp only [Except.ok.injEq, Prod.mk.injEq, List.append_nil, List.nil_append] at hres
  obtain ⟨rfl, rfl⟩ := hres
  refine ⟨?_, ?_, ?_, rfl⟩ <;>
    (by_cases hc1 : oldS.t_signal_kub ≠ newS.t_signal_kub <;>
     by_cases hc2 : oldS.t_signal_deflegmator ≠ newS.t_signal_deflegmator <;>
     by_cases hc3 : oldS.delta_t ≠ newS.delta_t ∨ oldS.period_seconds ≠ newS.period_seconds <;>
     simp [hs2v, hc1, hc2, hc3, MState.set, MState.setStab])

/-- State with the cube signal triggered and the stability signal
triggered, used to show exactly the stability signal being reset. -/
def sC7 : MState := ⟨⟨false, true⟩, ⟨true, false⟩, ⟨false, true⟩⟩

/-- C7 witness: changing only delta_t with no data present resets exactly
the stability signal; the triggered cube signal and the armed condenser
signal keep their state, and no alarm is notified. -/
theorem C7_settings_dependency_witness :
    env0.latest_k = none ∧ env0.latest_d = none ∧
    (sC7.kub = (if oldC7.t_signal_kub ≠ newC7.t_signal_kub then ⟨true, false⟩ else sC7.kub) ∧
     sC7.defl =
       (if oldC7.t_signal_deflegmator ≠ newC7.t_signal_deflegmator then ⟨true, false⟩
        else sC7.defl) ∧
     (⟨true, false⟩ : SigState) =
       (if oldC7.delta_t ≠ newC7.delta_t ∨ oldC7.period_seconds ≠ newC7.period_seconds then
         ⟨true, false⟩
        else sC7.stab) ∧
     ([] : List Alarm) = []) := by
  refine ⟨rfl, rfl, ?_⟩
  exact C7_settings_dependency oldC7 newC7 env0 0 sC7
    ⟨⟨false, true⟩, ⟨true, false⟩, ⟨true, false⟩⟩ [] rfl rfl rfl

/-! The cross-signal reset side effect of the silent auto-reset path. -/

/-- When the stability condition does not hold, the stability check is a
complete no-op. -/
theorem stabcheck_nofire (st : Settings) (env : Env)
    (hnf : stabFires st env = false) :
    ∀ s s' A stt, check_temperature_stability_signal st env s = (s', A, stt) →
      s' = s ∧ A = [] := by
  intro s s' A stt hres
  unfold check_temperature_stability_signal at hres
  split at hres
  · simp only [Prod.mk.injEq] at hres
    obtain ⟨rfl, rfl, rfl⟩ := hres
    exact ⟨rfl, rfl⟩
  · split at hres
    · rename_i va avg hcore
      rw [stabFires, hcore] at hnf
      exact absurd hnf (by simp)
    · simp only [Prod.mk.injEq] at hres
      obtain ⟨rfl, rfl, rfl⟩ := hres
      exact ⟨rfl, rfl⟩

theorem autoClearB_eq_true (sid : SigId) (st : Settings) (env : Env) (s : MState) :
    autoClearB sid st env s = true ↔
      (s.get sid).monitoring_active = false ∧
      ∃ w, (topicVal sid env >>= pyFloat?) = some w ∧ w < thrOf sid st := by
  unfold autoClearB
  cases hact : (s.get sid).monitoring_active <;>
    cases hp : topicVal sid env >>= pyFloat? <;> simp [hp, hact]

/-- A threshold check that takes its silent auto-reset branch leaves the
stability signal armed and untriggered, provided the stability condition
does not hold at re-evaluation time. -/
theorem tempcheck_resets_stab (st : Settings) (env : Env) (sid : SigId) (v : ℚ)
    (fuel : ℕ)
    (hparse : (topicVal sid env >>= pyFloat?) = some v) (hlt : v < thrOf sid st)
    (hnf : stabFires st env = false) :
    ∀ s s' A stt, (s.get sid).monitoring_active = false →
      _check_temperature_signal (check_signal_conditions st env fuel) sid st env s =
        .ok (s', A, stt) →
      s'.stab = ⟨true, false⟩ := by
  intro s s' A stt hact hres
  obtain ⟨rv, hrv, hpv⟩ : ∃ rv, topicVal sid env = some rv ∧ pyFloat? rv = some v := by
    cases htv : topicVal sid env with
    | none => rw [htv] at hparse; exact absurd hparse (by simp)
    | some rv => rw [htv] at hparse; exact ⟨rv, rfl, by simpa using hparse⟩
  unfold _check_temperature_signal at hres
  simp only [hact, hrv, hpv, Bool.false_eq_true, if_false] at hres
  rw [if_pos hlt] at hres
  cases hrec1 : check_signal_conditions st env fuel (s.set sid ⟨true, false⟩) with
  | error e => simp [hrec1] at hres
  | ok p1 =>
    obtain ⟨s2, a1⟩ := p1
    simp only [hrec1] at hres
    cases hrec2 : check_signal_conditions st env fuel (s2.setStab ⟨true, false⟩) with
    | error e => simp [hrec2] at hres
    | ok p2 =>
      obtain ⟨s4, a2⟩ := p2
      simp only [hrec2] at hres
      simp only [Except.ok.injEq, Prod.mk.injEq] at hres
      obtain ⟨rfl, rfl, rfl⟩ := hres
      exact csc_stab_armed_stable st env hnf fuel _ s4 a2 rfl hrec2

/-- A threshold check whose signal is not in the auto-reset condition
leaves the other threshold signal and the stability signal untouched. -/
theorem tempcheck_noreset_pres (st : Settings) (env : Env) (sid : SigId)
    (recur : MState → Except EvalErr (MState × List Alarm)) :
    ∀ s s' A stt, autoClearB sid st env s = false →
      _check_temperature_signal recur sid st env s = .ok (s', A, stt) →
      (∀ sid2, sid2 ≠ sid → s'.get sid2 = s.get sid2) ∧ s'.stab = s.stab := by
  intro s s' A stt hnc hres
  unfold _check_temperature_signal at hres
  cases hact : (s.get sid).monitoring_active with
  | true =>
    cases hrv : topicVal sid env with
    | none =>
      simp only [hact, hrv, if_true] at hres
      simp only [Except.ok.injEq, Prod.mk.injEq] at hres
      obtain ⟨rfl, rfl, rfl⟩ := hres
      exact ⟨fun _ _ => rfl, rfl⟩
    | some rv =>
      cases hpv : pyFloat? rv with
      | none => simp [hact, hrv, hpv] at hres
      | some v =>
        simp only [hact, hrv, hpv, if_true] at hres
        rcases le_or_lt (thrOf sid st) v with hle | hlt
        · rw [if_pos hle] at hres
          simp only [Except.ok.injEq, Prod.mk.injEq] at hres
          obtain ⟨rfl, rfl, rfl⟩ := hres
          exact ⟨fun sid2 h2 => get_set_of_ne s sid sid2 _ (fun hh => h2 hh.symm),
            set_stab s sid _⟩
        · rw [if_neg (not_le.mpr hlt)] at hres
          simp only [Except.ok.injEq, Prod.mk.injEq] at hres
          obtain ⟨rfl, rfl, rfl⟩ := hres
          exact ⟨fun _ _ => rfl, rfl⟩
  | false =>
    cases hrv : topicVal sid env with
    | none =>
      simp only [hact, hrv, Bool.false_eq_true, if_false] at hres
      simp only [Except.ok.injEq, Prod.mk.injEq] at hres
      obtain ⟨rfl, rfl, rfl⟩ := hres
      exact ⟨fun _ _ => rfl, rfl⟩
    | some rv =>
      cases hpv : pyFloat? rv with
      | none => simp [hact, hrv, hpv] at hres
      | some v =>
        rcases lt_or_le v (thrOf sid st) with hlt | hge
        · exfalso
          have : autoClearB sid st env s = true := by
            rw [autoClearB_eq_true]
            exact ⟨hact, v, by rw [hrv]; simpa using hpv, hlt⟩
          rw [this] at hnc
          exact absurd hnc (by simp)
        · simp only [hact, hrv, hpv, Bool.false_eq_true, if_false] at hres
          rw [if_neg (not_lt.mpr hge)] at hres
          simp only [Except.ok.injEq, Prod.mk.injEq] at hres
          obtain ⟨rfl, rfl, rfl⟩ := hres
          exact ⟨fun _ _ => rfl, rfl⟩

/-- Cube and condenser thresholds 90/100, delta 1; latest cube 80 (below
the cube threshold but above the gate), stable window of two pairs. -/
def envC10 : Env := ⟨some (.num 80), none, 100, [95, 99], [80, 80], [95, 99], [70, 70]⟩

def stC10 : Settings := ⟨90, 100, 1, 60⟩

/-- Cube signal triggered, condenser armed, stability already triggered. -/
def sC10 : MState := ⟨⟨false, true⟩, ⟨true, false⟩, ⟨false, true⟩⟩

/-- C10 counterexample: the cube signal performs its silent auto-reset
(it goes from triggered to armed), and the stability signal is indeed
reset as a side effect, but the reset immediately re-evaluates it; with
the stability condition holding, it re-triggers and fires a second
stability alarm, so it ends triggered rather than armed and
not-triggered. -/
theorem C10_counterexample :
    check_signal_conditions stC10 envC10 4 sC10 =
      .ok (⟨⟨true, false⟩, ⟨true, false⟩, ⟨false, true⟩⟩, [.stability 0 1 10]) ∧
    (⟨⟨true, false⟩, ⟨true, false⟩, ⟨false, true⟩⟩ : MState).stab ≠
      (⟨true, false⟩ : SigState) := by
  constructor
  · norm_num [check_signal_conditions, _check_temperature_signal,
      check_temperature_stability_signal, stability_core, num_pairs, variation, avg_dT,
      dts_in_window, k_recent, c_recent, k_data_window, c_data_window, start_time,
      get_windowed_data, scanStartIndex, listMax, listMin, TERM_K_70, pyFloat?,
      topicVal, thrOf, envC10, stC10, sC10, MState.get, MState.set, MState.setStab]
  · decide

/-- C10 (amended): whenever a threshold signal is in its silent
auto-reset condition (monitoring off, latest value present and parsing
strictly below its threshold), a successful evaluation pass resets the
stability signal to armed and not-triggered as a side effect, provided
the stability condition does not hold at re-evaluation time; if it does
hold, the re-evaluation performed by the reset re-triggers the stability
signal with a fresh alarm instead (see the counterexample). -/
theorem C10_stability_reset_side_effect (sid : SigId) (st : Settings) (env : Env)
    (fuel : ℕ) (v : ℚ) (s s' : MState) (A : List Alarm)
    (hact : (s.get sid).monitoring_active = false)
    (hparse : (topicVal sid env >>= pyFloat?) = some v)
    (hlt : v < thrOf sid st)
    (hnf : stabFires st env = false)
    (hres : check_signal_conditions st env fuel s = .ok (s', A)) :
    s'.stab = ⟨true, false⟩ := by
  cases fuel with
  | zero => simp [check_signal_conditions] at hres
  | succ fuel =>
    rw [check_signal_conditions] at hres
    obtain ⟨hsa1, hsa2, hsa3, hsa4⟩ := stab_armed_closures st env hnf
    cases sid with
    | kub =>
      cases hk : _check_temperature_signal (check_signal_conditions st env fuel)
          .kub st env s with
      | error e => simp [hk] at hres
      | ok p1 =>
        obtain ⟨s1, a1, stt1⟩ := p1
        simp only [hk] at hres
        have hst1 : s1.stab = ⟨true, false⟩ :=
          tempcheck_resets_stab st env .kub v fuel hparse hlt hnf s s1 a1 stt1 hact hk
        cases hd : _check_temperature_signal (check_signal_conditions st env fuel)
            .defl st env s1 with
        | error e => simp [hd] at hres
        | ok p2 =>
          obtain ⟨s2, a2, stt2⟩ := p2
          simp only [hd] at hres
          have hst2 : s2.stab = ⟨true, false⟩ :=
            (tempcheck_preserve st env _ _ hsa1 hsa2 hsa3 hsa4 fuel .defl
              s1 s2 a2 stt2 hst1 hd).1
          rcases hs : check_temperature_stability_signal st env s2 with ⟨s3, a3, stt3⟩
          simp only [hs] at hres
          simp only [Except.ok.injEq, Prod.mk.injEq] at hres
          obtain ⟨rfl, rfl⟩ := hres
          obtain ⟨rfl, -⟩ := stabcheck_nofire st env hnf s2 s3 a3 stt3 hs
          exact hst2
    | defl =>
      cases hck : autoClearB .kub st env s with
      | true =>
        obtain ⟨hactk, w, hpw, hwlt⟩ := (autoClearB_eq_true .kub st env s).mp hck
        cases hk : _check_temperature_signal (check_signal_conditions st env fuel)
            .kub st env s with
        | error e => simp [hk] at hres
        | ok p1 =>
          obtain ⟨s1, a1, stt1⟩ := p1
          simp only [hk] at hres
          have hst1 : s1.stab = ⟨true, false⟩ :=
            tempcheck_resets_stab st env .kub w fuel hpw hwlt hnf s s1 a1 stt1 hactk hk
          cases hd : _check_temperature_signal (check_signal_conditions st env fuel)
              .defl st env s1 with
          | error e => simp [hd] at hres
          | ok p2 =>
            obtain ⟨s2, a2, stt2⟩ := p2
            simp only [hd] at hres
            have hst2 : s2.stab = ⟨true, false⟩ :=
              (tempcheck_preserve st env _ _ hsa1 hsa2 hsa3 hsa4 fuel .defl
                s1 s2 a2 stt2 hst1 hd).1
            rcases hs : check_temperature_stability_signal st env s2 with ⟨s3, a3, stt3⟩
            simp only [hs] at hres
            simp only [Except.ok.injEq, Prod.mk.injEq] at hres
            obtain ⟨rfl, rfl⟩ := hres
            obtain ⟨rfl, -⟩ := stabcheck_nofire st env hnf s2 s3 a3 stt3 hs
            exact hst2
      | false =>
        cases hk : _check_temperature_signal (check_signal_conditions st env fuel)
            .kub st env s with
        | error e => simp [hk] at hres
        | ok p1 =>
          obtain ⟨s1, a1, stt1⟩ := p1
          simp only [hk] at hres
          obtain ⟨hpres, hstab⟩ :=
            tempcheck_noreset_pres st env .kub (check_signal_conditions st env fuel)
              s s1 a1 stt1 hck hk
          have hactd1 : (s1.get .defl).monitoring_active = false := by
            rw [hpres .defl (by decide)]
            exact hact
          cases hd : _check_temperature_signal (check_signal_conditions st env fuel)
              .defl st env s1 with
          | error e => simp [hd] at hres
          | ok p2 =>
            obtain ⟨s2, a2, stt2⟩ := p2
            simp only [hd] at hres
            have hst2 : s2.stab = ⟨true, false⟩ :=
              tempcheck_resets_stab st env .defl v fuel hparse hlt hnf
                s1 s2 a2 stt2 hactd1 hd
            rcases hs : check_temperature_stability_signal st env s2 with ⟨s3, a3, stt3⟩
            simp only [hs] at hres
            simp only [Except.ok.injEq, Prod.mk.injEq] at hres
            obtain ⟨rfl, rfl⟩ := hres
            obtain ⟨rfl, -⟩ := stabcheck_nofire st env hnf s2 s3 a3 stt3 hs
            exact hst2

/-- C10 witness: a triggered cube signal at value 50 (below threshold 60)
with a triggered stability signal and a failing stability gate: the
evaluation auto-resets the cube signal and leaves the stability signal
armed and not-triggered. -/
theorem C10_stability_reset_side_effect_witness :
    (sC7.get .kub).monitoring_active = false ∧
    (topicVal .kub envC3 >>= pyFloat?) = some 50 ∧
    (50 : ℚ) < thrOf .kub defaultSettings ∧
    stabFires defaultSettings envC3 = false ∧
    initialState.stab = ⟨true, false⟩ :=
  ⟨rfl, rfl, by norm_num [thrOf, defaultSettings], rfl,
    C10_stability_reset_side_effect .kub defaultSettings envC3 4 50 sC7 initialState []
      rfl rfl (by norm_num [thrOf, defaultSettings]) rfl rfl⟩

/-- K-series [80, 81, 79] and C-series [70, 70.5, 69.5], all three pairs
inside the 60-second window before now = 100. -/
def envC1 : Env :=
  ⟨some (.num 80), none, 100, [90, 95, 99], [80, 81, 79], [90, 95, 99], [70, 70.5, 69.5]⟩

/-- delta_t threshold 2, thresholds high enough not to interfere. -/
def stC1two : Settings := ⟨200, 200, 2, 60⟩

/-- delta_t threshold 1. -/
def stC1one : Settings := ⟨200, 200, 1, 60⟩

/-- C1 counterexample: on the very series of the claim, the computed
spread is max [10, 10.5, 9.5] - min [10, 10.5, 9.5] = 1, not 1.5, and
since the comparison is variation <= threshold, the signal does trigger
with delta_t_threshold = 1.0, contrary to the claim. -/
theorem C1_counterexample :
    variation stC1one envC1 = 1 ∧
    (1 : ℚ) ≠ 3 / 2 ∧
    check_temperature_stability_signal stC1one envC1 initialState =
      (initialState.setStab ⟨false, true⟩, [.stability 1 1 10], .core (.stable 1 10)) ∧
    (initialState.setStab ⟨false, true⟩).stab.triggered = true := by
  refine ⟨?_, by norm_num, ?_, rfl⟩
  · norm_num [variation, dts_in_window, k_recent, c_recent, num_pairs,
      k_data_window, c_data_window, start_time, get_windowed_data, scanStartIndex,
      listMax, listMin, envC1, stC1one]
  · norm_num [check_temperature_stability_signal, stability_core, num_pairs, variation,
      avg_dT, dts_in_window, k_recent, c_recent, k_data_window, c_data_window,
      start_time, get_windowed_data, scanStartIndex, listMax, listMin, TERM_K_70,
      pyFloat?, envC1, stC1one, initialState]

/-- C1 (amended): once armed, gate passed and at least two positionally
paired samples in the window, the evaluator computes dT positionally over
the last n = min(count_K, count_C) window samples, variation as
max(dT) - min(dT) and mean as their average, and triggers (with an
AlarmSink call) exactly when variation <= delta_t_threshold; on the
series [80, 81, 79] and [70, 70.5, 69.5], dT = [10, 10.5, 9.5],
variation = 1, and the signal triggers both with threshold 2 and with
threshold 1. -/
theorem C1_stability_variance :
    (∀ (st : Settings) (env : Env) (i : ℕ), i < num_pairs st env →
      (dts_in_window st env).getD i 0 =
        (k_data_window st env).getD
          ((k_data_window st env).length - num_pairs st env + i) 0 -
        (c_data_window st env).getD
          ((c_data_window st env).length - num_pairs st env + i) 0) ∧
    (∀ (st : Settings) (env : Env) (tk : ℚ),
      (env.latest_k >>= pyFloat?) = some tk → TERM_K_70 < tk →
      2 ≤ num_pairs st env →
      stability_core st env =
        (if variation st env ≤ st.delta_t then
          StabCore.stable (variation st env) (avg_dT st env)
         else StabCore.unstable (variation st env) (avg_dT st env))) ∧
    (∀ (st : Settings) (env : Env) (s : MState) (va avg : ℚ),
      s.stab.monitoring_active = true →
      (stability_core st env = .stable va avg →
        check_temperature_stability_signal st env s =
          (s.setStab ⟨false, true⟩, [.stability va st.delta_t avg],
            .core (.stable va avg))) ∧
      (stability_core st env = .unstable va avg →
        check_temperature_stability_signal st env s =
          (s, [], .core (.unstable va avg)))) ∧
    dts_in_window stC1one envC1 = [10, 10.5, 9.5] ∧
    variation stC1one envC1 = 1 ∧
    check_temperature_stability_signal stC1two envC1 initialState =
      (initialState.setStab ⟨false, true⟩, [.stability 1 2 10], .core (.stable 1 10)) ∧
    check_temperature_stability_signal stC1one envC1 initialState =
      (initialState.setStab ⟨false, true⟩, [.stability 1 1 10], .core (.stable 1 10)) := by
  refine ⟨?_, ?_, ?_, ?_, ?_, ?_, ?_⟩
  · intro st env i hi
    have hkw : num_pairs st env ≤ (k_data_window st env).length := by
      rw [num_pairs]
      exact min_le_left _ _
    have hcw : num_pairs st env ≤ (c_data_window st env).length := by
      rw [num_pairs]
      exact min_le_right _ _
    have h1 : (k_recent st env).length = num_pairs st env := by
      rw [k_recent, List.length_drop]
      omega
    have h2 : (c_recent st env).length = num_pairs st env := by
      rw [c_recent, List.length_drop]
      omega
    have h3 : (dts_in_window st env).length = num_pairs st env := by
      rw [dts_in_window, List.length_zipWith, h1, h2, min_self]
    have hi3 : i < (dts_in_window st env).length := by omega
    have hik : (k_data_window st env).length - num_pairs st env + i <
        (k_data_window st env).length := by omega
    have hic : (c_data_window st env).length - num_pairs st env + i <
        (c_data_window st env).length := by omega
    rw [List.getD_eq_getElem _ 0 hi3, List.getD_eq_getElem _ 0 hik,
      List.getD_eq_getElem _ 0 hic]
    simp only [dts_in_window, List.getElem_zipWith, k_recent, c_recent,
      List.getElem_drop]
  · intro st env tk hparse hgate h2
    have hng : ¬ tk ≤ TERM_K_70 := not_le.mpr hgate
    have hn2 : ¬ num_pairs st env < 2 := not_lt.mpr h2
    unfold stability_core
    rw [hparse]
    simp [hng, hn2]
  · intro st env s va avg hact
    constructor <;>
      (intro hcore; simp [check_temperature_stability_signal, hact, hcore])
  · norm_num [dts_in_window, k_recent, c_recent, num_pairs, k_data_window,
      c_data_window, start_time, get_windowed_data, scanStartIndex, envC1, stC1one]
  · norm_num [variation, dts_in_window, k_recent, c_recent, num_pairs,
      k_data_window, c_data_window, start_time, get_windowed_data, scanStartIndex,
      listMax, listMin, envC1, stC1one]
  · norm_num [check_temperature_stability_signal, stability_core, num_pairs, variation,
      avg_dT, dts_in_window, k_recent, c_recent, k_data_window, c_data_window,
      start_time, get_windowed_data, scanStartIndex, listMax, listMin, TERM_K_70,
      pyFloat?, envC1, stC1two, initialState]
  · norm_num [check_temperature_stability_signal, stability_core, num_pairs, variation,
      avg_dT, dts_in_window, k_recent, c_recent, k_data_window, c_data_window,
      start_time, get_windowed_data, scanStartIndex, listMax, listMin, TERM_K_70,
      pyFloat?, envC1, stC1one, initialState]

/-- C1 witness: the variance formula applied at the concrete series of
the claim. -/
theorem C1_stability_variance_witness :
    (envC1.latest_k >>= pyFloat?) = some 80 ∧
    TERM_K_70 < (80 : ℚ) ∧
    2 ≤ num_pairs stC1one envC1 ∧
    stability_core stC1one envC1 =
      (if variation stC1one envC1 ≤ stC1one.delta_t then
        StabCore.stable (variation stC1one envC1) (avg_dT stC1one envC1)
       else StabCore.unstable (variation stC1one envC1) (avg_dT stC1one envC1)) := by
  have hg : TERM_K_70 < (80 : ℚ) := by norm_num [TERM_K_70]
  have h2 : 2 ≤ num_pairs stC1one envC1 := by
    norm_num [num_pairs, k_data_window, c_data_window, start_time, get_windowed_data,
      scanStartIndex, envC1, stC1one]
  exact ⟨rfl, hg, h2, C1_stability_variance.2.1 stC1one envC1 80 rfl hg h2⟩

end AlcoEsp
